import Mathlib

/-!
# gitea-mcp: tool handlers, schemas and registration

A shallow embedding of the Go packages `operation/label`, `operation/pull`,
`operation/repo` and `operation/user`.

* A handler is a function of the surrounding environment (the Gitea client and
  the Go library routines it calls) and of the untyped argument map.  It yields
  the list of client operations it performed, in order, and how it ended.
* A Go type assertion `v, ok := m[k].(T)` is an `Option`: `none` is `ok = false`.
* A run-time fault (index out of range, nil dereference) is the outcome `panic`.
-/

set_option autoImplicit false

namespace GiteaMcp

/-! ## Numbers -/

/-- A finite IEEE-754 double, written as the dyadic number `mant * 2 ^ exp`.
JSON numbers reach the handlers as `float64`; NaN and the infinities cannot be
written in JSON and are left out. -/
structure Float64 where
  mant : Int
  exp : Int
deriving Repr

namespace Float64

/-- The float64 holding the integer `n`. -/
def ofInt (n : Int) : Float64 := ⟨n, 0⟩

/-- The value with its fractional part discarded (rounding toward zero). -/
def trunc (f : Float64) : Int :=
  if 0 ≤ f.exp then f.mant * 2 ^ f.exp.toNat else Int.tdiv f.mant (2 ^ (-f.exp).toNat)

/-- The value is a whole number. -/
def isIntegral (f : Float64) : Bool :=
  if 0 ≤ f.exp then true else decide (f.mant % 2 ^ (-f.exp).toNat = 0)

/-- Comparison `f < k` with an integer constant. -/
def ltInt (f : Float64) (k : Int) : Bool :=
  if 0 ≤ f.exp then decide (f.mant * 2 ^ f.exp.toNat < k)
  else decide (f.mant < k * 2 ^ (-f.exp).toNat)

/-- The truncated value fits a 64-bit signed integer. -/
def inInt64Range (f : Float64) : Bool :=
  decide (-2 ^ 63 ≤ f.trunc ∧ f.trunc < 2 ^ 63)

end Float64

/-! ## Untyped argument maps -/

/-- A dynamically typed JSON value, as held in a Go `map[string]interface{}`. -/
inductive Value where
  | null
  | str (s : String)
  | num (f : Float64)
  | bool (b : Bool)
  | arr (xs : List Value)
  | obj (fields : List (String × Value))

/-- The argument map of one invocation.  `lookup` on a missing key gives
`none`, the nil interface of Go. -/
abbrev Arguments := List (String × Value)

/-- Type assertion `v.(string)`. -/
def asString : Option Value → Option String
  | some (Value.str s) => some s
  | _ => none

/-- Type assertion `v.(float64)`. -/
def asFloat64 : Option Value → Option Float64
  | some (Value.num f) => some f
  | _ => none

/-- Type assertion `v.(bool)`. -/
def asBool : Option Value → Option Bool
  | some (Value.bool b) => some b
  | _ => none

/-- Type assertion `v.([]interface{})`. -/
def asSlice : Option Value → Option (List Value)
  | some (Value.arr xs) => some xs
  | _ => none

/-! ## The Gitea client -/

/-- Pagination options of the SDK. -/
structure ListOptions where
  Page : Int
  PageSize : Int
deriving DecidableEq, Repr

/-- SDK `CreateLabelOption`. -/
structure CreateLabelOption where
  Name : String
  Color : String
  Description : String
deriving DecidableEq, Repr

/-- SDK `EditLabelOption`: every field is a pointer, `none` is nil. -/
structure EditLabelOption where
  Name : Option String
  Color : Option String
  Description : Option String
deriving DecidableEq, Repr

/-- SDK `ListPullRequestsOptions`. -/
structure ListPullRequestsOptions where
  State : String
  /-- SDK field `Sort` (a reserved word here). -/
  SortBy : String
  Milestone : Int
  ListOptions : ListOptions
deriving DecidableEq, Repr

/-- SDK `CreatePullRequestOption`, the fields the handlers set. -/
structure CreatePullRequestOption where
  Title : String
  Body : String
  Head : String
  Base : String
deriving DecidableEq, Repr

/-- SDK `FileOptions`, the string fields.  A field the handler does not set
keeps the zero value. -/
structure FileOptions where
  Message : String
  BranchName : String
  NewBranchName : String
deriving DecidableEq, Repr

/-- SDK `CreateBranchOption`. -/
structure CreateBranchOption where
  BranchName : String
  OldBranchName : String
deriving DecidableEq, Repr

/-- One operation of the Gitea client together with the arguments it is
called with. -/
inductive Call where
  | ListRepoLabels (owner repo : String) (opt : ListOptions)
  | GetRepoLabel (owner repo : String) (id : Int)
  | CreateLabel (owner repo : String) (opt : CreateLabelOption)
  | EditLabel (owner repo : String) (id : Int) (opt : EditLabelOption)
  | DeleteLabel (owner repo : String) (id : Int)
  | AddIssueLabels (owner repo : String) (index : Int) (labels : List Int)
  | ReplaceIssueLabels (owner repo : String) (index : Int) (labels : List Int)
  | ClearIssueLabels (owner repo : String) (index : Int)
  | DeleteIssueLabel (owner repo : String) (index : Int) (labelID : Int)
  | GetPullRequest (owner repo : String) (index : Int)
  | ListRepoPullRequests (owner repo : String) (opt : ListPullRequestsOptions)
  | CreatePullRequest (owner repo : String) (opt : CreatePullRequestOption)
  | GetContents (owner repo ref filePath : String)
  | ListContents (owner repo ref filePath : String)
  | CreateFile (owner repo filePath : String) (content : String) (opt : FileOptions)
  | UpdateFile (owner repo filePath : String) (sha content : String) (opt : FileOptions)
  | DeleteFile (owner repo filePath : String) (opt : FileOptions) (sha : String)
  | CreateBranch (owner repo : String) (opt : CreateBranchOption)
  | DeleteRepoBranch (owner repo branch : String)
  | ListRepoBranches (owner repo : String) (opt : ListOptions)
  | GetMyUserInfo
  | ListMyOrgs (opt : ListOptions)
deriving DecidableEq, Repr

/-- Whether the client operation changes state on the server. -/
def Call.isMutating : Call → Bool
  | Call.CreateLabel .. => true
  | Call.EditLabel .. => true
  | Call.DeleteLabel .. => true
  | Call.AddIssueLabels .. => true
  | Call.ReplaceIssueLabels .. => true
  | Call.ClearIssueLabels .. => true
  | Call.DeleteIssueLabel .. => true
  | Call.CreatePullRequest .. => true
  | Call.CreateFile .. => true
  | Call.UpdateFile .. => true
  | Call.DeleteFile .. => true
  | Call.CreateBranch .. => true
  | Call.DeleteRepoBranch .. => true
  | _ => false

/-- SDK `ContentsResponse`: `Content` is a `*string`; the remaining fields are
carried along unread in `rest`. -/
structure ContentsResponse where
  Content : Option String
  rest : String
deriving DecidableEq, Repr

/-- One element of the line listing built by `GetFileContentFn`. -/
structure ContentLine where
  LineNumber : Nat
  Content : String
deriving DecidableEq, Repr

/-- What surrounds a handler: the Gitea client and the Go library routines.
An error is represented by its message (`err.Error()`). -/
structure Env where
  /-- Answer of the client to an operation other than `GetContents`. -/
  client : Call → Except String String
  /-- Answer of the client to `GetContents`. -/
  getContents : String → String → String → String → Except String ContentsResponse
  /-- Result of converting a float64 too large for `int64`; Go leaves it to
  the implementation. -/
  outOfRange : Float64 → Int
  /-- Library `base64.StdEncoding.EncodeToString`. -/
  EncodeToString : String → String
  /-- Library `base64.StdEncoding.DecodeString`. -/
  DecodeString : String → Except String String
  /-- Library `bufio.Scanner` run to its end over the decoded bytes: the tokens
  that `Scan` delivered, and `Err()`. -/
  scanner : String → List String × Option String
  /-- Library `json.MarshalIndent` on the line listing. -/
  MarshalIndent : List ContentLine → Except String String

/-- Go conversion `int64(f)` (and `int(f)` on a 64-bit target): the fraction is
dropped; a result outside the 64-bit range is implementation-dependent. -/
def toInt64 (env : Env) (f : Float64) : Int :=
  if f.inInt64Range then f.trunc else env.outOfRange f

/-! ## Results -/

/-- A Go value handed to `to.TextResult`. -/
inductive Payload where
  /-- A Go string. -/
  | text (s : String)
  /-- A value returned by the client. -/
  | data (v : String)
  /-- A `ContentsResponse`. -/
  | contents (c : ContentsResponse)
deriving DecidableEq, Repr

/-- Modelled from the spec: the result envelope of package `pkg/to`, which is
not among the sources.  Section 3 of the specification: a tagged union
`Success{payload}` or `Failure{message}`, exactly one case populated. -/
inductive ResultEnvelope where
  | Success (payload : Payload)
  | Failure (message : String)
deriving DecidableEq, Repr

namespace To

/-- Modelled from the spec: `to.ErrorResult` of package `pkg/to`, which is not
among the sources.  Section 4.3: `Failure(err)` returns the message of `err`
tagged as an error outcome. -/
def ErrorResult (err : String) : ResultEnvelope := ResultEnvelope.Failure err

/-- Modelled from the spec: `to.TextResult` of package `pkg/to`, which is not
among the sources.  Section 4.3: `Success(value)` returns the payload with no
error flag. -/
def TextResult (v : Payload) : ResultEnvelope := ResultEnvelope.Success v

end To

namespace mcp

/-- Library `mcp.NewToolResultText`: a successful result with the given text. -/
def NewToolResultText (s : String) : ResultEnvelope :=
  ResultEnvelope.Success (Payload.text s)

end mcp

/-- How a handler invocation ends. -/
inductive Outcome where
  | returned (r : ResultEnvelope)
  | panic (what : String)
deriving DecidableEq, Repr

/-- One run of a handler: the client operations performed, in order, and the
outcome. -/
structure Exec where
  calls : List Call
  out : Outcome
deriving DecidableEq, Repr

/-- The handler returns `r` without having called the client. -/
def ret (r : ResultEnvelope) : Exec := ⟨[], Outcome.returned r⟩

/-- The handler returns `r` after the single client operation `c`. -/
def retAfter (c : Call) (r : ResultEnvelope) : Exec := ⟨[c], Outcome.returned r⟩

/-- The outcome is a Failure envelope. -/
def Exec.isFailure (e : Exec) : Bool :=
  match e.out with
  | Outcome.returned (ResultEnvelope.Failure _) => true
  | _ => false

/-- The outcome is a Success envelope. -/
def Exec.isSuccess (e : Exec) : Bool :=
  match e.out with
  | Outcome.returned (ResultEnvelope.Success _) => true
  | _ => false

/-- Formatting of an `int64` by the verb `%v`. -/
def fmtInt (i : Int) : String := toString i

/-! ## Tool schemas (library `mcp-go`) -/

namespace mcp

/-- The JSON kind a parameter is declared with. -/
inductive Kind where
  | string
  | number
  | boolean
  | array
deriving DecidableEq, Repr

/-- The declaration of one parameter of a tool. -/
structure ParameterSpec where
  name : String
  kind : Kind
  required : Bool
  default : Option Value
  enum : List String
  items : Option Kind
  description : String

/-- A property option is a function on the parameter declaration, as in the
library. -/
abbrev PropertyOption := ParameterSpec → ParameterSpec

/-- Library `mcp.Required()`. -/
def Required : PropertyOption := fun p => { p with required := true }

/-- Library `mcp.Description(s)` on a property. -/
def Description (s : String) : PropertyOption := fun p => { p with description := s }

/-- Library `mcp.DefaultNumber(f)`. -/
def DefaultNumber (n : Int) : PropertyOption :=
  fun p => { p with default := some (Value.num (Float64.ofInt n)) }

/-- Library `mcp.DefaultString(s)`. -/
def DefaultString (s : String) : PropertyOption :=
  fun p => { p with default := some (Value.str s) }

/-- Library `mcp.Enum(values...)`. -/
def Enum (values : List String) : PropertyOption := fun p => { p with enum := values }

/-- Library `mcp.Items(schema)` with the schema `{"type": kind}`. -/
def Items (k : Kind) : PropertyOption := fun p => { p with items := some k }

/-- A declared tool: its name, its description and its parameters in the order
of declaration. -/
structure Tool where
  Name : String
  Description : String
  Params : List ParameterSpec

/-- A tool option is a function on the tool, as in the library. -/
abbrev ToolOption := Tool → Tool

/-- Library `mcp.WithDescription(s)`. -/
def WithDescription (s : String) : ToolOption := fun t => { t with Description := s }

/-- Adds a parameter of kind `k`, after the parameters declared so far. -/
def withParam (k : Kind) (name : String) (opts : List PropertyOption) : ToolOption :=
  fun t => { t with Params := t.Params ++ [opts.foldl (fun p o => o p) ⟨name, k, false, none, [], none, ""⟩] }

/-- Library `mcp.WithString(name, opts...)`. -/
def WithString (name : String) (opts : List PropertyOption) : ToolOption :=
  withParam Kind.string name opts

/-- Library `mcp.WithNumber(name, opts...)`. -/
def WithNumber (name : String) (opts : List PropertyOption) : ToolOption :=
  withParam Kind.number name opts

/-- Library `mcp.WithBoolean(name, opts...)`. -/
def WithBoolean (name : String) (opts : List PropertyOption) : ToolOption :=
  withParam Kind.boolean name opts

/-- Library `mcp.WithArray(name, opts...)`. -/
def WithArray (name : String) (opts : List PropertyOption) : ToolOption :=
  withParam Kind.array name opts

/-- Library `mcp.NewTool(name, opts...)`. -/
def NewTool (name : String) (opts : List ToolOption) : Tool :=
  opts.foldl (fun t o => o t) ⟨name, "", []⟩

end mcp

namespace server

/-- Library `server.ToolHandlerFunc`, with the environment made explicit. -/
abbrev ToolHandlerFunc := Env → Arguments → Exec

/-- Library `server.ServerTool`: a declared tool with its handler. -/
structure ServerTool where
  Tool : mcp.Tool
  Handler : ToolHandlerFunc

end server

namespace tool

/-- One statement of an `init` function: `Tool.RegisterRead(s)` or
`Tool.RegisterWrite(s)`. -/
inductive Registration where
  | RegisterRead (s : server.ServerTool)
  | RegisterWrite (s : server.ServerTool)

/-- The declared tool and handler a registration statement carries. -/
def Registration.serverTool : Registration → server.ServerTool
  | Registration.RegisterRead s => s
  | Registration.RegisterWrite s => s

/-- The statement is a `RegisterWrite`. -/
def Registration.isWrite : Registration → Bool
  | Registration.RegisterRead _ => false
  | Registration.RegisterWrite _ => true

end tool

/-! ## Package `operation/label` -/

namespace label

def ListRepoLabelsToolName : String := "list_repo_labels"
def GetRepoLabelToolName : String := "get_repo_label"
def CreateRepoLabelToolName : String := "create_repo_label"
def EditRepoLabelToolName : String := "edit_repo_label"
def DeleteRepoLabelToolName : String := "delete_repo_label"
def AddIssueLabelsToolName : String := "add_issue_labels"
def ReplaceIssueLabelsToolName : String := "replace_issue_labels"
def ClearIssueLabelsToolName : String := "clear_issue_labels"
def RemoveIssueLabelToolName : String := "remove_issue_label"

def ListRepoLabelsTool : mcp.Tool :=
  mcp.NewTool ListRepoLabelsToolName [
    mcp.WithDescription "Lists all labels for a given repository",
    mcp.WithString "owner" [mcp.Required, mcp.Description "repository owner"],
    mcp.WithString "repo" [mcp.Required, mcp.Description "repository name"],
    mcp.WithNumber "page" [mcp.Description "page number", mcp.DefaultNumber 1],
    mcp.WithNumber "pageSize" [mcp.Description "page size", mcp.DefaultNumber 100]]

def GetRepoLabelTool : mcp.Tool :=
  mcp.NewTool GetRepoLabelToolName [
    mcp.WithDescription "Gets a single label by its ID for a repository",
    mcp.WithString "owner" [mcp.Required, mcp.Description "repository owner"],
    mcp.WithString "repo" [mcp.Required, mcp.Description "repository name"],
    mcp.WithNumber "id" [mcp.Required, mcp.Description "label ID"]]

def CreateRepoLabelTool : mcp.Tool :=
  mcp.NewTool CreateRepoLabelToolName [
    mcp.WithDescription "Creates a new label for a repository",
    mcp.WithString "owner" [mcp.Required, mcp.Description "repository owner"],
    mcp.WithString "repo" [mcp.Required, mcp.Description "repository name"],
    mcp.WithString "name" [mcp.Required, mcp.Description "label name"],
    mcp.WithString "color" [mcp.Required, mcp.Description "label color (hex code, e.g., #RRGGBB)"],
    mcp.WithString "description" [mcp.Description "label description"]]

def EditRepoLabelTool : mcp.Tool :=
  mcp.NewTool EditRepoLabelToolName [
    mcp.WithDescription "Edits an existing label in a repository",
    mcp.WithString "owner" [mcp.Required, mcp.Description "repository owner"],
    mcp.WithString "repo" [mcp.Required, mcp.Description "repository name"],
    mcp.WithNumber "id" [mcp.Required, mcp.Description "label ID"],
    mcp.WithString "name" [mcp.Description "new label name"],
    mcp.WithString "color" [mcp.Description "new label color (hex code, e.g., #RRGGBB)"],
    mcp.WithString "description" [mcp.Description "new label description"]]

def DeleteRepoLabelTool : mcp.Tool :=
  mcp.NewTool DeleteRepoLabelToolName [
    mcp.WithDescription "Deletes a label from a repository",
    mcp.WithString "owner" [mcp.Required, mcp.Description "repository owner"],
    mcp.WithString "repo" [mcp.Required, mcp.Description "repository name"],
    mcp.WithNumber "id" [mcp.Required, mcp.Description "label ID"]]

def AddIssueLabelsTool : mcp.Tool :=
  mcp.NewTool AddIssueLabelsToolName [
    mcp.WithDescription "Adds one or more labels to an issue",
    mcp.WithString "owner" [mcp.Required, mcp.Description "repository owner"],
    mcp.WithString "repo" [mcp.Required, mcp.Description "repository name"],
    mcp.WithNumber "index" [mcp.Required, mcp.Description "issue index"],
    mcp.WithArray "labels" [mcp.Required, mcp.Description "array of label IDs to add",
      mcp.Items mcp.Kind.number]]

def ReplaceIssueLabelsTool : mcp.Tool :=
  mcp.NewTool ReplaceIssueLabelsToolName [
    mcp.WithDescription "Replaces all labels on an issue",
    mcp.WithString "owner" [mcp.Required, mcp.Description "repository owner"],
    mcp.WithString "repo" [mcp.Required, mcp.Description "repository name"],
    mcp.WithNumber "index" [mcp.Required, mcp.Description "issue index"],
    mcp.WithArray "labels" [mcp.Required, mcp.Description "array of label IDs to replace with",
      mcp.Items mcp.Kind.number]]

def ClearIssueLabelsTool : mcp.Tool :=
  mcp.NewTool ClearIssueLabelsToolName [
    mcp.WithDescription "Removes all labels from an issue",
    mcp.WithString "owner" [mcp.Required, mcp.Description "repository owner"],
    mcp.WithString "repo" [mcp.Required, mcp.Description "repository name"],
    mcp.WithNumber "index" [mcp.Required, mcp.Description "issue index"]]

def RemoveIssueLabelTool : mcp.Tool :=
  mcp.NewTool RemoveIssueLabelToolName [
    mcp.WithDescription "Removes a single label from an issue",
    mcp.WithString "owner" [mcp.Required, mcp.Description "repository owner"],
    mcp.WithString "repo" [mcp.Required, mcp.Description "repository name"],
    mcp.WithNumber "index" [mcp.Required, mcp.Description "issue index"],
    mcp.WithNumber "label_id" [mcp.Required, mcp.Description "label ID to remove"]]

def ListRepoLabelsFn (env : Env) (req : Arguments) : Exec :=
  match asString (req.lookup "owner") with
  | none => ret (To.ErrorResult "owner is required")
  | some owner =>
  match asString (req.lookup "repo") with
  | none => ret (To.ErrorResult "repo is required")
  | some repo =>
  let page := (asFloat64 (req.lookup "page")).getD (Float64.ofInt 1)
  let pageSize := (asFloat64 (req.lookup "pageSize")).getD (Float64.ofInt 100)
  let opt : ListOptions := ⟨toInt64 env page, toInt64 env pageSize⟩
  let c := Call.ListRepoLabels owner repo opt
  match env.client c with
  | Except.error err =>
    retAfter c (To.ErrorResult ("list " ++ owner ++ "/" ++ repo ++ "/labels err: " ++ err))
  | Except.ok labels => retAfter c (To.TextResult (Payload.data labels))

def GetRepoLabelFn (env : Env) (req : Arguments) : Exec :=
  match asString (req.lookup "owner") with
  | none => ret (To.ErrorResult "owner is required")
  | some owner =>
  match asString (req.lookup "repo") with
  | none => ret (To.ErrorResult "repo is required")
  | some repo =>
  match asFloat64 (req.lookup "id") with
  | none => ret (To.ErrorResult "label ID is required")
  | some id =>
  let c := Call.GetRepoLabel owner repo (toInt64 env id)
  match env.client c with
  | Except.error err =>
    retAfter c (To.ErrorResult ("get " ++ owner ++ "/" ++ repo ++ "/label/"
      ++ fmtInt (toInt64 env id) ++ " err: " ++ err))
  | Except.ok label => retAfter c (To.TextResult (Payload.data label))

def CreateRepoLabelFn (env : Env) (req : Arguments) : Exec :=
  match asString (req.lookup "owner") with
  | none => ret (To.ErrorResult "owner is required")
  | some owner =>
  match asString (req.lookup "repo") with
  | none => ret (To.ErrorResult "repo is required")
  | some repo =>
  match asString (req.lookup "name") with
  | none => ret (To.ErrorResult "name is required")
  | some name =>
  match asString (req.lookup "color") with
  | none => ret (To.ErrorResult "color is required")
  | some color =>
  let description := (asString (req.lookup "description")).getD ""
  let opt : CreateLabelOption := ⟨name, color, description⟩
  let c := Call.CreateLabel owner repo opt
  match env.client c with
  | Except.error err =>
    retAfter c (To.ErrorResult ("create " ++ owner ++ "/" ++ repo ++ "/label err: " ++ err))
  | Except.ok label => retAfter c (To.TextResult (Payload.data label))

def EditRepoLabelFn (env : Env) (req : Arguments) : Exec :=
  match asString (req.lookup "owner") with
  | none => ret (To.ErrorResult "owner is required")
  | some owner =>
  match asString (req.lookup "repo") with
  | none => ret (To.ErrorResult "repo is required")
  | some repo =>
  match asFloat64 (req.lookup "id") with
  | none => ret (To.ErrorResult "label ID is required")
  | some id =>
  let opt : EditLabelOption :=
    ⟨asString (req.lookup "name"), asString (req.lookup "color"),
     asString (req.lookup "description")⟩
  let c := Call.EditLabel owner repo (toInt64 env id) opt
  match env.client c with
  | Except.error err =>
    retAfter c (To.ErrorResult ("edit " ++ owner ++ "/" ++ repo ++ "/label/"
      ++ fmtInt (toInt64 env id) ++ " err: " ++ err))
  | Except.ok label => retAfter c (To.TextResult (Payload.data label))

def DeleteRepoLabelFn (env : Env) (req : Arguments) : Exec :=
  match asString (req.lookup "owner") with
  | none => ret (To.ErrorResult "owner is required")
  | some owner =>
  match asString (req.lookup "repo") with
  | none => ret (To.ErrorResult "repo is required")
  | some repo =>
  match asFloat64 (req.lookup "id") with
  | none => ret (To.ErrorResult "label ID is required")
  | some id =>
  let c := Call.DeleteLabel owner repo (toInt64 env id)
  match env.client c with
  | Except.error err =>
    retAfter c (To.ErrorResult ("delete " ++ owner ++ "/" ++ repo ++ "/label/"
      ++ fmtInt (toInt64 env id) ++ " err: " ++ err))
  | Except.ok _ => retAfter c (To.TextResult (Payload.text "Label deleted successfully"))

/-- The loop `for _, l := range labelsRaw` of `AddIssueLabelsFn`: `labels` is
the slice built so far; `none` is the early return on an element that is not a
float64. -/
def AddIssueLabelsFn.loop (env : Env) : List Value → List Int → Option (List Int)
  | [], labels => some labels
  | l :: rest, labels =>
    match asFloat64 (some l) with
    | some labelID => AddIssueLabelsFn.loop env rest (labels ++ [toInt64 env labelID])
    | none => none

def AddIssueLabelsFn (env : Env) (req : Arguments) : Exec :=
  match asString (req.lookup "owner") with
  | none => ret (To.ErrorResult "owner is required")
  | some owner =>
  match asString (req.lookup "repo") with
  | none => ret (To.ErrorResult "repo is required")
  | some repo =>
  match asFloat64 (req.lookup "index") with
  | none => ret (To.ErrorResult "issue index is required")
  | some index =>
  match asSlice (req.lookup "labels") with
  | none => ret (To.ErrorResult "labels (array of IDs) is required")
  | some labelsRaw =>
  match AddIssueLabelsFn.loop env labelsRaw [] with
  | none => ret (To.ErrorResult "invalid label ID in labels array")
  | some labels =>
  let c := Call.AddIssueLabels owner repo (toInt64 env index) labels
  match env.client c with
  | Except.error err =>
    retAfter c (To.ErrorResult ("add labels to " ++ owner ++ "/" ++ repo ++ "/issue/"
      ++ fmtInt (toInt64 env index) ++ " err: " ++ err))
  | Except.ok issueLabels => retAfter c (To.TextResult (Payload.data issueLabels))

/-- The loop `for _, l := range labelsRaw` of `ReplaceIssueLabelsFn`. -/
def ReplaceIssueLabelsFn.loop (env : Env) : List Value → List Int → Option (List Int)
  | [], labels => some labels
  | l :: rest, labels =>
    match asFloat64 (some l) with
    | some labelID => ReplaceIssueLabelsFn.loop env rest (labels ++ [toInt64 env labelID])
    | none => none

def ReplaceIssueLabelsFn (env : Env) (req : Arguments) : Exec :=
  match asString (req.lookup "owner") with
  | none => ret (To.ErrorResult "owner is required")
  | some owner =>
  match asString (req.lookup "repo") with
  | none => ret (To.ErrorResult "repo is required")
  | some repo =>
  match asFloat64 (req.lookup "index") with
  | none => ret (To.ErrorResult "issue index is required")
  | some index =>
  match asSlice (req.lookup "labels") with
  | none => ret (To.ErrorResult "labels (array of IDs) is required")
  | some labelsRaw =>
  match ReplaceIssueLabelsFn.loop env labelsRaw [] with
  | none => ret (To.ErrorResult "invalid label ID in labels array")
  | some labels =>
  let c := Call.ReplaceIssueLabels owner repo (toInt64 env index) labels
  match env.client c with
  | Except.error err =>
    retAfter c (To.ErrorResult ("replace labels on " ++ owner ++ "/" ++ repo ++ "/issue/"
      ++ fmtInt (toInt64 env index) ++ " err: " ++ err))
  | Except.ok issueLabels => retAfter c (To.TextResult (Payload.data issueLabels))

def ClearIssueLabelsFn (env : Env) (req : Arguments) : Exec :=
  match asString (req.lookup "owner") with
  | none => ret (To.ErrorResult "owner is required")
  | some owner =>
  match asString (req.lookup "repo") with
  | none => ret (To.ErrorResult "repo is required")
  | some repo =>
  match asFloat64 (req.lookup "index") with
  | none => ret (To.ErrorResult "issue index is required")
  | some index =>
  let c := Call.ClearIssueLabels owner repo (toInt64 env index)
  match env.client c with
  | Except.error err =>
    retAfter c (To.ErrorResult ("clear labels on " ++ owner ++ "/" ++ repo ++ "/issue/"
      ++ fmtInt (toInt64 env index) ++ " err: " ++ err))
  | Except.ok _ => retAfter c (To.TextResult (Payload.text "Labels cleared successfully"))

def RemoveIssueLabelFn (env : Env) (req : Arguments) : Exec :=
  match asString (req.lookup "owner") with
  | none => ret (To.ErrorResult "owner is required")
  | some owner =>
  match asString (req.lookup "repo") with
  | none => ret (To.ErrorResult "repo is required")
  | some repo =>
  match asFloat64 (req.lookup "index") with
  | none => ret (To.ErrorResult "issue index is required")
  | some index =>
  match asFloat64 (req.lookup "label_id") with
  | none => ret (To.ErrorResult "label ID is required")
  | some labelID =>
  let c := Call.DeleteIssueLabel owner repo (toInt64 env index) (toInt64 env labelID)
  match env.client c with
  | Except.error err =>
    retAfter c (To.ErrorResult ("remove label " ++ fmtInt (toInt64 env labelID) ++ " from "
      ++ owner ++ "/" ++ repo ++ "/issue/" ++ fmtInt (toInt64 env index) ++ " err: " ++ err))
  | Except.ok _ => retAfter c (To.TextResult (Payload.text "Label removed successfully"))

/-- The `init` function of `label.go`. -/
def init : List tool.Registration := [
  tool.Registration.RegisterRead ⟨ListRepoLabelsTool, ListRepoLabelsFn⟩,
  tool.Registration.RegisterRead ⟨GetRepoLabelTool, GetRepoLabelFn⟩,
  tool.Registration.RegisterWrite ⟨CreateRepoLabelTool, CreateRepoLabelFn⟩,
  tool.Registration.RegisterWrite ⟨EditRepoLabelTool, EditRepoLabelFn⟩,
  tool.Registration.RegisterWrite ⟨DeleteRepoLabelTool, DeleteRepoLabelFn⟩,
  tool.Registration.RegisterWrite ⟨AddIssueLabelsTool, AddIssueLabelsFn⟩,
  tool.Registration.RegisterWrite ⟨ReplaceIssueLabelsTool, ReplaceIssueLabelsFn⟩,
  tool.Registration.RegisterWrite ⟨ClearIssueLabelsTool, ClearIssueLabelsFn⟩,
  tool.Registration.RegisterWrite ⟨RemoveIssueLabelTool, RemoveIssueLabelFn⟩]

end label

/-! ## Package `operation/pull` -/

namespace pull

def GetPullRequestByIndexToolName : String := "get_pull_request_by_index"
def ListRepoPullRequestsToolName : String := "list_repo_pull_requests"
def CreatePullRequestToolName : String := "create_pull_request"

def GetPullRequestByIndexTool : mcp.Tool :=
  mcp.NewTool GetPullRequestByIndexToolName [
    mcp.WithDescription "get pull request by index",
    mcp.WithString "owner" [mcp.Required, mcp.Description "repository owner"],
    mcp.WithString "repo" [mcp.Required, mcp.Description "repository name"],
    mcp.WithNumber "index" [mcp.Required, mcp.Description "repository pull request index"]]

def ListRepoPullRequestsTool : mcp.Tool :=
  mcp.NewTool ListRepoPullRequestsToolName [
    mcp.WithDescription "List repository pull requests",
    mcp.WithString "owner" [mcp.Required, mcp.Description "repository owner"],
    mcp.WithString "repo" [mcp.Required, mcp.Description "repository name"],
    mcp.WithString "state" [mcp.Description "state", mcp.Enum ["open", "closed", "all"],
      mcp.DefaultString "all"],
    mcp.WithString "sort" [mcp.Description "sort",
      mcp.Enum ["oldest", "recentupdate", "leastupdate", "mostcomment", "leastcomment", "priority"],
      mcp.DefaultString "recentupdate"],
    mcp.WithNumber "milestone" [mcp.Description "milestone"],
    mcp.WithNumber "page" [mcp.Description "page number", mcp.DefaultNumber 1],
    mcp.WithNumber "pageSize" [mcp.Description "page size", mcp.DefaultNumber 100]]

def CreatePullRequestTool : mcp.Tool :=
  mcp.NewTool CreatePullRequestToolName [
    mcp.WithDescription "create pull request",
    mcp.WithString "owner" [mcp.Required, mcp.Description "repository owner"],
    mcp.WithString "repo" [mcp.Required, mcp.Description "repository name"],
    mcp.WithString "title" [mcp.Required, mcp.Description "pull request title"],
    mcp.WithString "body" [mcp.Required, mcp.Description "pull request body"],
    mcp.WithString "head" [mcp.Required, mcp.Description "pull request head"],
    mcp.WithString "base" [mcp.Required, mcp.Description "pull request base"]]

def GetPullRequestByIndexFn (env : Env) (req : Arguments) : Exec :=
  match asString (req.lookup "owner") with
  | none => ret (To.ErrorResult "owner is required")
  | some owner =>
  match asString (req.lookup "repo") with
  | none => ret (To.ErrorResult "repo is required")
  | some repo =>
  match asFloat64 (req.lookup "index") with
  | none => ret (To.ErrorResult "index is required")
  | some index =>
  let c := Call.GetPullRequest owner repo (toInt64 env index)
  match env.client c with
  | Except.error err =>
    retAfter c (To.ErrorResult ("get " ++ owner ++ "/" ++ repo ++ "/pr/"
      ++ fmtInt (toInt64 env index) ++ " err: " ++ err))
  | Except.ok pr => retAfter c (To.TextResult (Payload.data pr))

def ListRepoPullRequestsFn (env : Env) (req : Arguments) : Exec :=
  match asString (req.lookup "owner") with
  | none => ret (To.ErrorResult "owner is required")
  | some owner =>
  match asString (req.lookup "repo") with
  | none => ret (To.ErrorResult "repo is required")
  | some repo =>
  let state := (asString (req.lookup "state")).getD ""
  let sort := (asString (req.lookup "sort")).getD "recentupdate"
  let milestone := (asFloat64 (req.lookup "milestone")).getD (Float64.ofInt 0)
  let page := (asFloat64 (req.lookup "page")).getD (Float64.ofInt 1)
  let pageSize := (asFloat64 (req.lookup "pageSize")).getD (Float64.ofInt 100)
  let opt : ListPullRequestsOptions :=
    ⟨state, sort, toInt64 env milestone, ⟨toInt64 env page, toInt64 env pageSize⟩⟩
  let c := Call.ListRepoPullRequests owner repo opt
  match env.client c with
  | Except.error err =>
    retAfter c (To.ErrorResult ("list " ++ owner ++ "/" ++ repo ++ "/pull_requests err: " ++ err))
  | Except.ok pullRequests => retAfter c (To.TextResult (Payload.data pullRequests))

def CreatePullRequestFn (env : Env) (req : Arguments) : Exec :=
  match asString (req.lookup "owner") with
  | none => ret (To.ErrorResult "owner is required")
  | some owner =>
  match asString (req.lookup "repo") with
  | none => ret (To.ErrorResult "repo is required")
  | some repo =>
  match asString (req.lookup "title") with
  | none => ret (To.ErrorResult "title is required")
  | some title =>
  match asString (req.lookup "body") with
  | none => ret (To.ErrorResult "body is required")
  | some body =>
  match asString (req.lookup "head") with
  | none => ret (To.ErrorResult "head is required")
  | some head =>
  match asString (req.lookup "base") with
  | none => ret (To.ErrorResult "base is required")
  | some base =>
  let c := Call.CreatePullRequest owner repo ⟨title, body, head, base⟩
  match env.client c with
  | Except.error err =>
    retAfter c (To.ErrorResult ("create " ++ owner ++ "/" ++ repo ++ "/pull_request err: " ++ err))
  | Except.ok pr => retAfter c (To.TextResult (Payload.data pr))

/-- The `init` function of `pull.go`. -/
def init : List tool.Registration := [
  tool.Registration.RegisterRead ⟨GetPullRequestByIndexTool, GetPullRequestByIndexFn⟩,
  tool.Registration.RegisterRead ⟨ListRepoPullRequestsTool, ListRepoPullRequestsFn⟩,
  tool.Registration.RegisterWrite ⟨CreatePullRequestTool, CreatePullRequestFn⟩]

end pull

/-! ## Package `operation/repo`: `file.go` and `branch.go` -/

namespace repo

def GetFileToolName : String := "get_file_content"
def GetDirToolName : String := "get_dir_content"
def CreateFileToolName : String := "create_file"
def UpdateFileToolName : String := "update_file"
def DeleteFileToolName : String := "delete_file"

def GetFileContentTool : mcp.Tool :=
  mcp.NewTool GetFileToolName [
    mcp.WithDescription "Get file Content and Metadata",
    mcp.WithString "owner" [mcp.Required, mcp.Description "repository owner"],
    mcp.WithString "repo" [mcp.Required, mcp.Description "repository name"],
    mcp.WithString "ref" [mcp.Required, mcp.Description "ref can be branch/tag/commit"],
    mcp.WithString "filePath" [mcp.Required, mcp.Description "file path"],
    mcp.WithBoolean "withLines" [mcp.Description "whether to return file content with lines"]]

def GetDirContentTool : mcp.Tool :=
  mcp.NewTool GetDirToolName [
    mcp.WithDescription "Get a list of entries in a directory",
    mcp.WithString "owner" [mcp.Required, mcp.Description "repository owner"],
    mcp.WithString "repo" [mcp.Required, mcp.Description "repository name"],
    mcp.WithString "ref" [mcp.Required, mcp.Description "ref can be branch/tag/commit"],
    mcp.WithString "filePath" [mcp.Required, mcp.Description "directory path"]]

def CreateFileTool : mcp.Tool :=
  mcp.NewTool CreateFileToolName [
    mcp.WithDescription "Create file",
    mcp.WithString "owner" [mcp.Required, mcp.Description "repository owner"],
    mcp.WithString "repo" [mcp.Required, mcp.Description "repository name"],
    mcp.WithString "filePath" [mcp.Required, mcp.Description "file path"],
    mcp.WithString "content" [mcp.Required, mcp.Description "file content"],
    mcp.WithString "message" [mcp.Required, mcp.Description "commit message"],
    mcp.WithString "branch_name" [mcp.Required, mcp.Description "branch name"],
    mcp.WithString "new_branch_name" [mcp.Description "new branch name"]]

def UpdateFileTool : mcp.Tool :=
  mcp.NewTool UpdateFileToolName [
    mcp.WithDescription "Update file",
    mcp.WithString "owner" [mcp.Required, mcp.Description "repository owner"],
    mcp.WithString "repo" [mcp.Required, mcp.Description "repository name"],
    mcp.WithString "filePath" [mcp.Required, mcp.Description "file path"],
    mcp.WithString "sha" [mcp.Required,
      mcp.Description "sha is the SHA for the file that already exists"],
    mcp.WithString "content" [mcp.Required, mcp.Description "file content"],
    mcp.WithString "message" [mcp.Required, mcp.Description "commit message"],
    mcp.WithString "branch_name" [mcp.Required, mcp.Description "branch name"]]

def DeleteFileTool : mcp.Tool :=
  mcp.NewTool DeleteFileToolName [
    mcp.WithDescription "Delete file",
    mcp.WithString "owner" [mcp.Required, mcp.Description "repository owner"],
    mcp.WithString "repo" [mcp.Required, mcp.Description "repository name"],
    mcp.WithString "filePath" [mcp.Required, mcp.Description "file path"],
    mcp.WithString "message" [mcp.Required, mcp.Description "commit message"],
    mcp.WithString "branch_name" [mcp.Required, mcp.Description "branch name"],
    mcp.WithString "sha" [mcp.Description "sha"]]

/-- The loop `for scanner.Scan()` of `GetFileContentFn` over the tokens the
scanner delivers: `line` is the counter, `contentLines` the slice built so
far. -/
def GetFileContentFn.loop : List String → Nat → List ContentLine → List ContentLine
  | [], _, contentLines => contentLines
  | text :: rest, line, contentLines =>
    GetFileContentFn.loop rest (line + 1) (contentLines ++ [⟨line + 1, text⟩])

def GetFileContentFn (env : Env) (req : Arguments) : Exec :=
  match asString (req.lookup "owner") with
  | none => ret (To.ErrorResult "owner is required")
  | some owner =>
  match asString (req.lookup "repo") with
  | none => ret (To.ErrorResult "repo is required")
  | some repo =>
  let ref := (asString (req.lookup "ref")).getD ""
  match asString (req.lookup "filePath") with
  | none => ret (To.ErrorResult "filePath is required")
  | some filePath =>
  let c := Call.GetContents owner repo ref filePath
  match env.getContents owner repo ref filePath with
  | Except.error err => retAfter c (To.ErrorResult ("get file err: " ++ err))
  | Except.ok content =>
  let withLines := (asBool (req.lookup "withLines")).getD false
  if withLines then
    -- `*content.Content`
    match content.Content with
    | none => ⟨[c], Outcome.panic "invalid memory address or nil pointer dereference"⟩
    | some encoded =>
    match env.DecodeString encoded with
    | Except.error err => retAfter c (To.ErrorResult ("decode base64 content err: " ++ err))
    | Except.ok rawContent =>
    let contentLines := GetFileContentFn.loop (env.scanner rawContent).1 0 []
    match (env.scanner rawContent).2 with
    | some err => retAfter c (To.ErrorResult ("scan content err: " ++ err))
    | none =>
    -- `contentLines[len(contentLines)-1]`
    match contentLines.getLast? with
    | none => ⟨[c], Outcome.panic "index out of range [-1]"⟩
    | some last =>
    let contentLines := if last.Content = "" then contentLines.dropLast else contentLines
    match env.MarshalIndent contentLines with
    | Except.error err => retAfter c (To.ErrorResult ("marshal content lines err: " ++ err))
    | Except.ok contentStr =>
    retAfter c (To.TextResult (Payload.contents { content with Content := some contentStr }))
  else retAfter c (To.TextResult (Payload.contents content))

def GetDirContentFn (env : Env) (req : Arguments) : Exec :=
  match asString (req.lookup "owner") with
  | none => ret (To.ErrorResult "owner is required")
  | some owner =>
  match asString (req.lookup "repo") with
  | none => ret (To.ErrorResult "repo is required")
  | some repo =>
  let ref := (asString (req.lookup "ref")).getD ""
  match asString (req.lookup "filePath") with
  | none => ret (To.ErrorResult "filePath is required")
  | some filePath =>
  let c := Call.ListContents owner repo ref filePath
  match env.client c with
  | Except.error err => retAfter c (To.ErrorResult ("get dir content err: " ++ err))
  | Except.ok content => retAfter c (To.TextResult (Payload.data content))

def CreateFileFn (env : Env) (req : Arguments) : Exec :=
  match asString (req.lookup "owner") with
  | none => ret (To.ErrorResult "owner is required")
  | some owner =>
  match asString (req.lookup "repo") with
  | none => ret (To.ErrorResult "repo is required")
  | some repo =>
  match asString (req.lookup "filePath") with
  | none => ret (To.ErrorResult "filePath is required")
  | some filePath =>
  let content := (asString (req.lookup "content")).getD ""
  let message := (asString (req.lookup "message")).getD ""
  let branchName := (asString (req.lookup "branch_name")).getD ""
  let c := Call.CreateFile owner repo filePath (env.EncodeToString content)
    ⟨message, branchName, ""⟩
  match env.client c with
  | Except.error err => retAfter c (To.ErrorResult ("create file err: " ++ err))
  | Except.ok _ => retAfter c (To.TextResult (Payload.text "Create file success"))

def UpdateFileFn (env : Env) (req : Arguments) : Exec :=
  match asString (req.lookup "owner") with
  | none => ret (To.ErrorResult "owner is required")
  | some owner =>
  match asString (req.lookup "repo") with
  | none => ret (To.ErrorResult "repo is required")
  | some repo =>
  match asString (req.lookup "filePath") with
  | none => ret (To.ErrorResult "filePath is required")
  | some filePath =>
  match asString (req.lookup "sha") with
  | none => ret (To.ErrorResult "sha is required")
  | some sha =>
  let content := (asString (req.lookup "content")).getD ""
  let message := (asString (req.lookup "message")).getD ""
  let branchName := (asString (req.lookup "branch_name")).getD ""
  let c := Call.UpdateFile owner repo filePath sha (env.EncodeToString content)
    ⟨message, branchName, ""⟩
  match env.client c with
  | Except.error err => retAfter c (To.ErrorResult ("update file err: " ++ err))
  | Except.ok _ => retAfter c (To.TextResult (Payload.text "Update file success"))

def DeleteFileFn (env : Env) (req : Arguments) : Exec :=
  match asString (req.lookup "owner") with
  | none => ret (To.ErrorResult "owner is required")
  | some owner =>
  match asString (req.lookup "repo") with
  | none => ret (To.ErrorResult "repo is required")
  | some repo =>
  match asString (req.lookup "filePath") with
  | none => ret (To.ErrorResult "filePath is required")
  | some filePath =>
  let message := (asString (req.lookup "message")).getD ""
  let branchName := (asString (req.lookup "branch_name")).getD ""
  match asString (req.lookup "sha") with
  | none => ret (To.ErrorResult "sha is required")
  | some sha =>
  let c := Call.DeleteFile owner repo filePath ⟨message, branchName, ""⟩ sha
  match env.client c with
  | Except.error err => retAfter c (To.ErrorResult ("delete file err: " ++ err))
  | Except.ok _ => retAfter c (To.TextResult (Payload.text "Delete file success"))

/-- The `init` function of `file.go`. -/
def initFile : List tool.Registration := [
  tool.Registration.RegisterRead ⟨GetFileContentTool, GetFileContentFn⟩,
  tool.Registration.RegisterRead ⟨GetDirContentTool, GetDirContentFn⟩,
  tool.Registration.RegisterWrite ⟨CreateFileTool, CreateFileFn⟩,
  tool.Registration.RegisterWrite ⟨UpdateFileTool, UpdateFileFn⟩,
  tool.Registration.RegisterWrite ⟨DeleteFileTool, DeleteFileFn⟩]

def CreateBranchToolName : String := "create_branch"
def DeleteBranchToolName : String := "delete_branch"
def ListBranchesToolName : String := "list_branches"

def CreateBranchTool : mcp.Tool :=
  mcp.NewTool CreateBranchToolName [
    mcp.WithDescription "Create branch",
    mcp.WithString "owner" [mcp.Required, mcp.Description "repository owner"],
    mcp.WithString "repo" [mcp.Required, mcp.Description "repository name"],
    mcp.WithString "branch" [mcp.Required, mcp.Description "Name of the branch to create"],
    mcp.WithString "old_branch" [mcp.Required,
      mcp.Description "Name of the old branch to create from"]]

def DeleteBranchTool : mcp.Tool :=
  mcp.NewTool DeleteBranchToolName [
    mcp.WithDescription "Delete branch",
    mcp.WithString "owner" [mcp.Required, mcp.Description "repository owner"],
    mcp.WithString "repo" [mcp.Required, mcp.Description "repository name"],
    mcp.WithString "branch" [mcp.Required, mcp.Description "Name of the branch to delete"]]

def ListBranchesTool : mcp.Tool :=
  mcp.NewTool ListBranchesToolName [
    mcp.WithDescription "List branches",
    mcp.WithString "owner" [mcp.Required, mcp.Description "repository owner"],
    mcp.WithString "repo" [mcp.Required, mcp.Description "repository name"]]

def CreateBranchFn (env : Env) (req : Arguments) : Exec :=
  match asString (req.lookup "owner") with
  | none => ret (To.ErrorResult "owner is required")
  | some owner =>
  match asString (req.lookup "repo") with
  | none => ret (To.ErrorResult "repo is required")
  | some repo =>
  match asString (req.lookup "branch") with
  | none => ret (To.ErrorResult "branch is required")
  | some branch =>
  let oldBranch := (asString (req.lookup "old_branch")).getD ""
  let c := Call.CreateBranch owner repo ⟨branch, oldBranch⟩
  match env.client c with
  | Except.error err => retAfter c (To.ErrorResult ("create branch error: " ++ err))
  | Except.ok _ => retAfter c (mcp.NewToolResultText "Branch Created")

def DeleteBranchFn (env : Env) (req : Arguments) : Exec :=
  match asString (req.lookup "owner") with
  | none => ret (To.ErrorResult "owner is required")
  | some owner =>
  match asString (req.lookup "repo") with
  | none => ret (To.ErrorResult "repo is required")
  | some repo =>
  match asString (req.lookup "branch") with
  | none => ret (To.ErrorResult "branch is required")
  | some branch =>
  let c := Call.DeleteRepoBranch owner repo branch
  match env.client c with
  | Except.error err => retAfter c (To.ErrorResult ("delete branch error: " ++ err))
  | Except.ok _ => retAfter c (To.TextResult (Payload.text "Branch Deleted"))

def ListBranchesFn (env : Env) (req : Arguments) : Exec :=
  match asString (req.lookup "owner") with
  | none => ret (To.ErrorResult "owner is required")
  | some owner =>
  match asString (req.lookup "repo") with
  | none => ret (To.ErrorResult "repo is required")
  | some repo =>
  let opt : ListOptions := ⟨1, 100⟩
  let c := Call.ListRepoBranches owner repo opt
  match env.client c with
  | Except.error err => retAfter c (To.ErrorResult ("list branches error: " ++ err))
  | Except.ok branches => retAfter c (To.TextResult (Payload.data branches))

/-- The `init` function of `branch.go`. -/
def initBranch : List tool.Registration := [
  tool.Registration.RegisterWrite ⟨CreateBranchTool, CreateBranchFn⟩,
  tool.Registration.RegisterWrite ⟨DeleteBranchTool, DeleteBranchFn⟩,
  tool.Registration.RegisterRead ⟨ListBranchesTool, ListBranchesFn⟩]

end repo

/-! ## Package `operation/user` -/

namespace user

def GetMyUserInfoToolName : String := "get_my_user_info"
def GetUserOrgsToolName : String := "get_user_orgs"
def defaultPage : Int := 1
def defaultPageSize : Int := 100

def GetMyUserInfoTool : mcp.Tool :=
  mcp.NewTool GetMyUserInfoToolName [
    mcp.WithDescription "Get my user info"]

def GetUserOrgsTool : mcp.Tool :=
  mcp.NewTool GetUserOrgsToolName [
    mcp.WithDescription "Get organizations associated with the authenticated user",
    mcp.WithNumber "page" [mcp.Description "page number", mcp.DefaultNumber defaultPage],
    mcp.WithNumber "pageSize" [mcp.Description "page size", mcp.DefaultNumber defaultPageSize]]

/-- Source `getIntArg(req, name, def)`. -/
def getIntArg (env : Env) (req : Arguments) (name : String) (dflt : Int) : Int :=
  match asFloat64 (req.lookup name) with
  | none => dflt
  | some val => if val.ltInt 1 then dflt else toInt64 env val

def GetUserInfoFn (env : Env) (_req : Arguments) : Exec :=
  let c := Call.GetMyUserInfo
  match env.client c with
  | Except.error err => retAfter c (To.ErrorResult ("get user info err: " ++ err))
  | Except.ok user => retAfter c (To.TextResult (Payload.data user))

def GetUserOrgsFn (env : Env) (req : Arguments) : Exec :=
  let page := getIntArg env req "page" defaultPage
  let pageSize := getIntArg env req "pageSize" defaultPageSize
  let opt : ListOptions := ⟨page, pageSize⟩
  let c := Call.ListMyOrgs opt
  match env.client c with
  | Except.error err => retAfter c (To.ErrorResult ("get user orgs err: " ++ err))
  | Except.ok orgs => retAfter c (To.TextResult (Payload.data orgs))

/-- Source `registerTools`, called by `init`: every element of `tools` is
registered with `RegisterRead`. -/
def registerTools : List tool.Registration :=
  let tools : List server.ServerTool := [
    ⟨GetMyUserInfoTool, GetUserInfoFn⟩,
    ⟨GetUserOrgsTool, GetUserOrgsFn⟩]
  tools.map tool.Registration.RegisterRead

/-- The `init` function of `user.go`. -/
def init : List tool.Registration := registerTools

end user

/-! ## The declared tools and what a schema asks of an argument map -/

/-- Every registration statement of the five source files. -/
def registrations : List tool.Registration :=
  label.init ++ pull.init ++ repo.initBranch ++ repo.initFile ++ user.init

/-- The dynamic type of the value is the one a parameter of kind `k` is
asserted to have (`string`, `float64`, `bool`, `[]interface{}`). -/
def Value.hasKind : mcp.Kind → Value → Bool
  | mcp.Kind.string, Value.str _ => true
  | mcp.Kind.number, Value.num _ => true
  | mcp.Kind.boolean, Value.bool _ => true
  | mcp.Kind.array, Value.arr _ => true
  | _, _ => false

/-- The value is acceptable for the parameter: it has the declared kind, the
elements of an array have the declared item kind, and a string with an enum
constraint is one of the allowed values. -/
def Value.validFor (p : mcp.ParameterSpec) : Value → Bool
  | Value.str s => p.kind == mcp.Kind.string && (p.enum.isEmpty || p.enum.contains s)
  | Value.arr xs =>
    p.kind == mcp.Kind.array &&
      (match p.items with
       | none => true
       | some k => xs.all (Value.hasKind k))
  | v => v.hasKind p.kind

/-- The argument map treats the parameter as its declaration asks: present
with an acceptable value, or absent when the parameter is optional. -/
def argOk (req : Arguments) (p : mcp.ParameterSpec) : Bool :=
  match req.lookup p.name with
  | none => !p.required
  | some v => v.validFor p

/-- The argument map is valid for the tool apart from the parameter `skip`:
every other declared parameter is treated as its declaration asks. -/
def validExcept (t : mcp.Tool) (skip : String) (req : Arguments) : Bool :=
  t.Params.all fun p => p.name == skip || argOk req p

/-- The argument map is valid for the tool. -/
def validArgs (t : mcp.Tool) (req : Arguments) : Bool :=
  t.Params.all fun p => argOk req p

/-- Position of the first element of a `labels` array that is not a number. -/
def firstInvalid : List Value → Option Nat
  | [] => none
  | Value.num _ :: rest => (firstInvalid rest).map Nat.succ
  | _ :: _ => some 0

/-! ## A concrete environment for evaluating the handlers -/

/-- Library `bufio.MaxScanTokenSize`: the size to which the buffer of a
`bufio.Scanner` may grow. -/
def MaxScanTokenSize : Nat := 64 * 1024

/-- Library `bufio.ErrTooLong`, as its message. -/
def ErrTooLong : String := "bufio.Scanner: token too long"

/-- Library `dropCR` of `bufio`: the line without one trailing carriage
return. -/
def dropCR (data : List Char) : List Char :=
  if data.getLast? = some '\r' then data.dropLast else data

/-- Go `len` of a text held as characters: the number of bytes of its UTF-8
coding. -/
def byteLength (data : List Char) : Nat := (data.map Char.utf8Size).sum

/-- Library `bufio.Scanner` with the split function `bufio.ScanLines`, run to
its end over a byte reader: the tokens that `Scan` delivers and `Err()`.  The
text is held as characters and measured in bytes.  `cur` is the part of the
current line read so far.  A line ends at a newline or at the end of the input;
an empty rest after the last newline is no line; every line is delivered
without one trailing carriage return; and a line of `MaxScanTokenSize` bytes or
more fills the buffer before its end is seen, which stops the scan with
`ErrTooLong`. -/
def scanLines : List Char → List Char → List String × Option String
  | [], cur =>
    if cur.isEmpty then ([], none)
    else if MaxScanTokenSize ≤ byteLength cur then ([], some ErrTooLong)
    else ([String.mk (dropCR cur)], none)
  | c :: rest, cur =>
    if c = '\n' then
      if MaxScanTokenSize ≤ byteLength cur then ([], some ErrTooLong)
      else (String.mk (dropCR cur) :: (scanLines rest []).1, (scanLines rest []).2)
    else scanLines rest (cur ++ [c])

/-- Some texts with their standard base64 encoding. -/
def base64Table : List (String × String) :=
  [("", ""), ("\n", "Cg=="), ("a", "YQ=="), ("a\n", "YQo="), ("a\nb", "YQpi"),
   ("a\n\n", "YQoK"), ("hello", "aGVsbG8=")]

/-- An environment in which the client answers every operation with `{}` and
`GetContents` with the given file, the out-of-range conversion is the one of
amd64, and the library routines are the tabulated base64 coding, the line
scanner `scanLines` and a plain rendering of the line listing. -/
def sampleEnv (file : ContentsResponse) : Env where
  client := fun _ => Except.ok "{}"
  getContents := fun _ _ _ _ => Except.ok file
  outOfRange := fun _ => -2 ^ 63
  EncodeToString := fun s =>
    match base64Table.find? (fun e => e.1 == s) with
    | some e => e.2
    | none => "<base64 of " ++ s ++ ">"
  DecodeString := fun s =>
    match base64Table.find? (fun e => e.2 == s) with
    | some e => Except.ok e.1
    | none => Except.error "illegal base64 data"
  scanner := fun raw => scanLines raw.data []
  MarshalIndent := fun ls =>
    Except.ok (String.intercalate "\n" (ls.map fun l => toString l.LineNumber ++ ": " ++ l.Content))

/-- A file as `GetContents` returns it for an empty file. -/
def emptyFile : ContentsResponse := ⟨some "", "{}"⟩

/-- The sample environment with an empty file. -/
def env0 : Env := sampleEnv emptyFile

/-- A request naming the repository `acme/widgets` and nothing else. -/
def baseReq : Arguments := [("owner", Value.str "acme"), ("repo", Value.str "widgets")]

/-- A `get_file_content` request for `README.md` on `main`, with lines. -/
def reqWithLines : Arguments :=
  [("owner", Value.str "acme"), ("repo", Value.str "widgets"), ("ref", Value.str "main"),
   ("filePath", Value.str "README.md"), ("withLines", Value.bool true)]

/-- An `add_issue_labels` request on issue 7 of `acme/widgets` with the given
`labels` array. -/
def reqLabels (labels : List Value) : Arguments :=
  [("owner", Value.str "acme"), ("repo", Value.str "widgets"),
   ("index", Value.num (Float64.ofInt 7)), ("labels", Value.arr labels)]

/-- A minimal valid `edit_repo_label` request: label 5 of `acme/widgets`. -/
def reqEdit : Arguments := baseReq ++ [("id", Value.num (Float64.ofInt 5))]

/-- A `delete_file` request that gives every declared parameter but `sha`. -/
def reqDeleteNoSha : Arguments :=
  baseReq ++ [("filePath", Value.str "a.txt"), ("message", Value.str "remove"),
    ("branch_name", Value.str "main")]

/-- The number 1.5, that is `3 * 2 ^ (-1)`. -/
def onePointFive : Float64 := ⟨3, -1⟩

/-- The error, if any, with which the client answers the operation. -/
def Env.errorOf (env : Env) : Call → Option String
  | Call.GetContents owner repoName ref filePath =>
    match env.getContents owner repoName ref filePath with
    | Except.error err => some err
    | Except.ok _ => none
  | c =>
    match env.client c with
    | Except.error err => some err
    | Except.ok _ => none

/-- The sample environment with a client that fails every operation. -/
def downEnv : Env :=
  { env0 with
    client := fun _ => Except.error "connection refused"
    getContents := fun _ _ _ _ => Except.error "connection refused" }

/-- The tool name constants declared in the `const` blocks of the five source
files. -/
def toolNameConstants : List String :=
  [label.ListRepoLabelsToolName, label.GetRepoLabelToolName, label.CreateRepoLabelToolName,
   label.EditRepoLabelToolName, label.DeleteRepoLabelToolName, label.AddIssueLabelsToolName,
   label.ReplaceIssueLabelsToolName, label.ClearIssueLabelsToolName,
   label.RemoveIssueLabelToolName,
   pull.GetPullRequestByIndexToolName, pull.ListRepoPullRequestsToolName,
   pull.CreatePullRequestToolName,
   repo.CreateBranchToolName, repo.DeleteBranchToolName, repo.ListBranchesToolName,
   repo.GetFileToolName, repo.GetDirToolName, repo.CreateFileToolName,
   repo.UpdateFileToolName, repo.DeleteFileToolName,
   user.GetMyUserInfoToolName, user.GetUserOrgsToolName]

/-- The names registered through `RegisterRead`. -/
def readNames : List String :=
  (registrations.filter fun r => !r.isWrite).map fun r => r.serverTool.Tool.Name

/-- The names registered through `RegisterWrite`. -/
def writeNames : List String :=
  (registrations.filter fun r => r.isWrite).map fun r => r.serverTool.Tool.Name

/-- The number `2 ^ 63`, the least float64 too large for a 64-bit signed
integer. -/
def twoPow63 : Float64 := ⟨1, 63⟩

/-- The scanned lines numbered upward from `n + 1`. -/
def numberFrom : Nat → List String → List ContentLine
  | _, [] => []
  | n, text :: rest => ⟨n + 1, text⟩ :: numberFrom (n + 1) rest

/-- A file whose content is the base64 coding of the two lines `a` and the
empty line. -/
def twoLineFile : ContentsResponse := ⟨some "YQoK", "{}"⟩

/-- A text of one line of `MaxScanTokenSize` letters `a`, without a newline. -/
@[irreducible]
def longLine : String := String.mk (List.replicate MaxScanTokenSize 'a')

/-- The standard base64 coding of `longLine`: 21845 times `YWFh`, the coding of
`aaa`, followed by `YQ==`, the coding of the last `a`. -/
@[irreducible]
def longLineEncoded : String :=
  String.mk ((List.replicate 21845 ['Y', 'W', 'F', 'h']).flatten ++ ['Y', 'Q', '=', '='])

/-- The sample environment with a file whose content is `longLine`. -/
def longLineEnv : Env :=
  { env0 with
    getContents := fun _ _ _ _ => Except.ok ⟨some longLineEncoded, "{}"⟩
    DecodeString := fun s =>
      if s = longLineEncoded then Except.ok longLine else env0.DecodeString s }

/-! ## Theorems -/

attribute [simp] mcp.NewTool mcp.WithString mcp.WithNumber mcp.WithBoolean mcp.WithArray
  mcp.withParam mcp.WithDescription mcp.Required mcp.Description mcp.DefaultNumber
  mcp.DefaultString mcp.Enum mcp.Items

/-! ### Type assertions -/

theorem asString_str (s : String) : asString (some (Value.str s)) = some s := rfl

theorem asFloat64_num (f : Float64) : asFloat64 (some (Value.num f)) = some f := rfl

theorem asBool_bool (b : Bool) : asBool (some (Value.bool b)) = some b := rfl

theorem asSlice_arr (xs : List Value) : asSlice (some (Value.arr xs)) = some xs := rfl

theorem asString_none : asString none = none := rfl

theorem asFloat64_none : asFloat64 none = none := rfl

theorem asBool_none : asBool none = none := rfl

theorem asSlice_none : asSlice none = none := rfl

/-! ### Required parameters (C1) -/

/-- C1, at a failing input: `CreateBranchTool` declares `old_branch` Required;
the request `{owner, repo, branch}` gives every other parameter a valid value
and lacks `old_branch`; `CreateBranchFn` nevertheless calls `CreateBranch`,
with an empty `OldBranchName`, and returns Success.  The same happens for
`ref` of `get_file_content` and for `content` of `create_file`. -/
theorem C1_required_parameter_not_enforced :
    ((repo.CreateBranchTool.Params.map fun p => (p.name, p.required))
        = [("owner", true), ("repo", true), ("branch", true), ("old_branch", true)]
      ∧ validExcept repo.CreateBranchTool "old_branch" (baseReq ++ [("branch", Value.str "dev")]) = true
      ∧ List.lookup "old_branch" (baseReq ++ [("branch", Value.str "dev")]) = none
      ∧ repo.CreateBranchFn env0 (baseReq ++ [("branch", Value.str "dev")])
          = ⟨[Call.CreateBranch "acme" "widgets" ⟨"dev", ""⟩],
             Outcome.returned (ResultEnvelope.Success (Payload.text "Branch Created"))⟩)
    ∧ ((repo.GetFileContentTool.Params.map fun p => (p.name, p.required))
        = [("owner", true), ("repo", true), ("ref", true), ("filePath", true), ("withLines", false)]
      ∧ validExcept repo.GetFileContentTool "ref" (baseReq ++ [("filePath", Value.str "README.md")]) = true
      ∧ List.lookup "ref" (baseReq ++ [("filePath", Value.str "README.md")]) = none
      ∧ repo.GetFileContentFn env0 (baseReq ++ [("filePath", Value.str "README.md")])
          = ⟨[Call.GetContents "acme" "widgets" "" "README.md"],
             Outcome.returned (ResultEnvelope.Success (Payload.contents emptyFile))⟩)
    ∧ ((repo.CreateFileTool.Params.map fun p => (p.name, p.required))
        = [("owner", true), ("repo", true), ("filePath", true), ("content", true),
           ("message", true), ("branch_name", true), ("new_branch_name", false)]
      ∧ validExcept repo.CreateFileTool "content"
          (baseReq ++ [("filePath", Value.str "a.txt"), ("message", Value.str "add"),
            ("branch_name", Value.str "main")]) = true
      ∧ List.lookup "content"
          (baseReq ++ [("filePath", Value.str "a.txt"), ("message", Value.str "add"),
            ("branch_name", Value.str "main")]) = none
      ∧ repo.CreateFileFn env0
          (baseReq ++ [("filePath", Value.str "a.txt"), ("message", Value.str "add"),
            ("branch_name", Value.str "main")])
          = ⟨[Call.CreateFile "acme" "widgets" "a.txt" "" ⟨"add", "main", ""⟩],
             Outcome.returned (ResultEnvelope.Success (Payload.text "Create file success"))⟩) := by
  refine ⟨⟨by decide, by decide, rfl, by decide⟩, ⟨by decide, by decide, rfl, by decide⟩,
    ⟨by decide, by decide, rfl, by decide⟩⟩

/-! ### Defaults (C2) -/

/-- C2, at a failing input: `ListRepoPullRequestsTool` declares the default
`"all"` for `state`; for the request `{owner, repo}` the handler passes the
empty string as `State` (while `sort`, `page` and `pageSize` get their declared
defaults `"recentupdate"`, 1 and 100). -/
theorem C2_state_default_not_applied :
    (pull.ListRepoPullRequestsTool.Params.map fun p => (p.name, asString p.default))
        = [("owner", none), ("repo", none), ("state", some "all"), ("sort", some "recentupdate"),
           ("milestone", none), ("page", none), ("pageSize", none)]
    ∧ List.lookup "state" baseReq = none
    ∧ pull.ListRepoPullRequestsFn env0 baseReq
        = ⟨[Call.ListRepoPullRequests "acme" "widgets" ⟨"", "recentupdate", 0, ⟨1, 100⟩⟩],
           Outcome.returned (ResultEnvelope.Success (Payload.data "{}"))⟩ := by
  refine ⟨by decide, rfl, by decide⟩

/-! ### Enum constraints (C3) -/

/-- C3, counterexample: `"bogus"` is outside the enum that
`ListRepoPullRequestsTool` declares for `state`, the rest of the request is
valid, and the handler calls `ListRepoPullRequests` with `State = "bogus"` and
returns Success. -/
theorem C3_counterexample_enum_not_checked :
    ((pull.ListRepoPullRequestsTool.Params.filter fun p => p.name == "state").map fun p => p.enum)
        = [["open", "closed", "all"]]
    ∧ validExcept pull.ListRepoPullRequestsTool "state" (("state", Value.str "bogus") :: baseReq) = true
    ∧ pull.ListRepoPullRequestsFn env0 (("state", Value.str "bogus") :: baseReq)
        = ⟨[Call.ListRepoPullRequests "acme" "widgets" ⟨"bogus", "recentupdate", 0, ⟨1, 100⟩⟩],
           Outcome.returned (ResultEnvelope.Success (Payload.data "{}"))⟩ := by
  refine ⟨by decide, by decide, by decide⟩

/-- C3, amended: `ListRepoPullRequestsFn` does not compare `state` and `sort`
with their enums.  When `owner` and `repo` are strings, any string given as
`state` (respectively `sort`) is passed unchanged as `State` (respectively
`Sort`) of the single `ListRepoPullRequests` call, and the handler returns a
Failure only if that call fails. -/
theorem C3_enum_value_passed_unchecked (env : Env) (req : Arguments) (owner repo : String)
    (ho : req.lookup "owner" = some (Value.str owner))
    (hr : req.lookup "repo" = some (Value.str repo)) :
    (∀ s, req.lookup "state" = some (Value.str s) →
        ∃ opt, (pull.ListRepoPullRequestsFn env req).calls
            = [Call.ListRepoPullRequests owner repo opt] ∧ opt.State = s)
    ∧ (∀ s, req.lookup "sort" = some (Value.str s) →
        ∃ opt, (pull.ListRepoPullRequestsFn env req).calls
            = [Call.ListRepoPullRequests owner repo opt] ∧ opt.SortBy = s)
    ∧ ((pull.ListRepoPullRequestsFn env req).isFailure = true →
        ∃ c err, (pull.ListRepoPullRequestsFn env req).calls = [c]
          ∧ env.client c = Except.error err) := by
  refine ⟨?_, ?_, ?_⟩
  · intro s hs
    simp only [pull.ListRepoPullRequestsFn, ho, hr, hs, asString, Option.getD_some]
    split <;> exact ⟨_, rfl, rfl⟩
  · intro s hs
    simp only [pull.ListRepoPullRequestsFn, ho, hr, hs, asString, Option.getD_some]
    split <;> exact ⟨_, rfl, rfl⟩
  · simp only [pull.ListRepoPullRequestsFn, ho, hr, asString]
    split
    · rename_i err herr
      intro _
      exact ⟨_, err, rfl, herr⟩
    · intro h
      simp [retAfter, Exec.isFailure, To.TextResult] at h

/-- C3, amended, at a concrete input: the request of the counterexample. -/
theorem C3_enum_value_passed_unchecked_witness :
    (∀ s, List.lookup "state" (("state", Value.str "bogus") :: baseReq) = some (Value.str s) →
        ∃ opt, (pull.ListRepoPullRequestsFn env0 (("state", Value.str "bogus") :: baseReq)).calls
            = [Call.ListRepoPullRequests "acme" "widgets" opt] ∧ opt.State = s)
    ∧ (∀ s, List.lookup "sort" (("state", Value.str "bogus") :: baseReq) = some (Value.str s) →
        ∃ opt, (pull.ListRepoPullRequestsFn env0 (("state", Value.str "bogus") :: baseReq)).calls
            = [Call.ListRepoPullRequests "acme" "widgets" opt] ∧ opt.SortBy = s)
    ∧ ((pull.ListRepoPullRequestsFn env0 (("state", Value.str "bogus") :: baseReq)).isFailure = true →
        ∃ c err, (pull.ListRepoPullRequestsFn env0 (("state", Value.str "bogus") :: baseReq)).calls = [c]
          ∧ env0.client c = Except.error err) :=
  C3_enum_value_passed_unchecked env0 (("state", Value.str "bogus") :: baseReq) "acme" "widgets"
    rfl rfl

/-! ### The line listing of `GetFileContentFn` (C4) -/

/-- Whenever the file decodes and the scanner delivers no line, the line
listing is empty and `contentLines[len(contentLines)-1]` faults. -/
theorem GetFileContentFn_no_lines_panics (env : Env) (req : Arguments)
    (owner repoName filePath encoded rest raw : String)
    (ho : req.lookup "owner" = some (Value.str owner))
    (hr : req.lookup "repo" = some (Value.str repoName))
    (hf : req.lookup "filePath" = some (Value.str filePath))
    (hw : req.lookup "withLines" = some (Value.bool true))
    (hc : env.getContents owner repoName ((asString (req.lookup "ref")).getD "") filePath
        = Except.ok ⟨some encoded, rest⟩)
    (hd : env.DecodeString encoded = Except.ok raw)
    (hs : env.scanner raw = ([], none)) :
    repo.GetFileContentFn env req
      = ⟨[Call.GetContents owner repoName ((asString (req.lookup "ref")).getD "") filePath],
         Outcome.panic "index out of range [-1]"⟩ := by
  simp only [repo.GetFileContentFn, ho, hr, hf, hw, asString_str, asBool_bool, hc, hd, hs,
    Option.getD_some, if_true, repo.GetFileContentFn.loop, List.getLast?_nil]

/-- C4, at a failing input: the file returned by `GetContents` is empty, its
content `""` decodes from base64 without error to the empty text, the scanner
delivers no line, and `GetFileContentFn` with `withLines = true` faults with an
index out of range instead of returning a result. -/
theorem C4_empty_file_with_lines_panics :
    env0.getContents "acme" "widgets" "main" "README.md" = Except.ok ⟨some "", "{}"⟩
    ∧ env0.DecodeString "" = Except.ok ""
    ∧ env0.scanner "" = ([], none)
    ∧ repo.GetFileContentFn env0 reqWithLines
        = ⟨[Call.GetContents "acme" "widgets" "main" "README.md"],
           Outcome.panic "index out of range [-1]"⟩ := by
  refine ⟨rfl, rfl, by decide, by decide⟩

/-! ### The `labels` array (C5) -/

/-- The loop of `AddIssueLabelsFn` returns early exactly when some element is
not a number. -/
theorem AddIssueLabelsFn_loop_eq_none (env : Env) (xs : List Value) (acc : List Int) :
    label.AddIssueLabelsFn.loop env xs acc = none ↔ firstInvalid xs ≠ none := by
  induction xs generalizing acc with
  | nil => simp [label.AddIssueLabelsFn.loop, firstInvalid]
  | cons x rest ih =>
    cases x <;> simp [label.AddIssueLabelsFn.loop, firstInvalid, asFloat64, ih]

/-- The loop of `ReplaceIssueLabelsFn` returns early exactly when some element
is not a number. -/
theorem ReplaceIssueLabelsFn_loop_eq_none (env : Env) (xs : List Value) (acc : List Int) :
    label.ReplaceIssueLabelsFn.loop env xs acc = none ↔ firstInvalid xs ≠ none := by
  induction xs generalizing acc with
  | nil => simp [label.ReplaceIssueLabelsFn.loop, firstInvalid]
  | cons x rest ih =>
    cases x <;> simp [label.ReplaceIssueLabelsFn.loop, firstInvalid, asFloat64, ih]

/-- C5, counterexample: for `labels = [1, "x", 3]` the first invalid element
has index 1, for `labels = ["x", 1, 3]` it has index 0, and `AddIssueLabelsFn`
returns one and the same Failure for both; the Failure therefore does not
identify the index. -/
theorem C5_counterexample_index_not_reported :
    firstInvalid [Value.num (Float64.ofInt 1), Value.str "x", Value.num (Float64.ofInt 3)] = some 1
    ∧ firstInvalid [Value.str "x", Value.num (Float64.ofInt 1), Value.num (Float64.ofInt 3)] = some 0
    ∧ label.AddIssueLabelsFn env0
          (reqLabels [Value.num (Float64.ofInt 1), Value.str "x", Value.num (Float64.ofInt 3)])
        = ⟨[], Outcome.returned (ResultEnvelope.Failure "invalid label ID in labels array")⟩
    ∧ label.AddIssueLabelsFn env0
          (reqLabels [Value.str "x", Value.num (Float64.ofInt 1), Value.num (Float64.ofInt 3)])
        = label.AddIssueLabelsFn env0
          (reqLabels [Value.num (Float64.ofInt 1), Value.str "x", Value.num (Float64.ofInt 3)]) := by
  refine ⟨by decide, by decide, by decide, by decide⟩

/-- C5, amended: when `owner`, `repo`, `index` and `labels` have their declared
types and the `labels` array holds at least one element that is not a number,
`AddIssueLabelsFn` and `ReplaceIssueLabelsFn` make no client call and return the
Failure with the fixed message "invalid label ID in labels array", which names
no index. -/
theorem C5_invalid_label_fails_without_call (env : Env) (req : Arguments)
    (owner repo : String) (index : Float64) (labelsRaw : List Value)
    (ho : req.lookup "owner" = some (Value.str owner))
    (hr : req.lookup "repo" = some (Value.str repo))
    (hi : req.lookup "index" = some (Value.num index))
    (hl : req.lookup "labels" = some (Value.arr labelsRaw))
    (hbad : firstInvalid labelsRaw ≠ none) :
    label.AddIssueLabelsFn env req
        = ⟨[], Outcome.returned (ResultEnvelope.Failure "invalid label ID in labels array")⟩
    ∧ label.ReplaceIssueLabelsFn env req
        = ⟨[], Outcome.returned (ResultEnvelope.Failure "invalid label ID in labels array")⟩ := by
  have h1 := (AddIssueLabelsFn_loop_eq_none env labelsRaw []).mpr hbad
  have h2 := (ReplaceIssueLabelsFn_loop_eq_none env labelsRaw []).mpr hbad
  constructor
  · simp [label.AddIssueLabelsFn, ho, hr, hi, hl, h1, asString, asFloat64, asSlice, ret,
      To.ErrorResult]
  · simp [label.ReplaceIssueLabelsFn, ho, hr, hi, hl, h2, asString, asFloat64, asSlice, ret,
      To.ErrorResult]

/-- C5, amended, at a concrete input: `labels = [1, "x", 3]`. -/
theorem C5_invalid_label_fails_without_call_witness :
    label.AddIssueLabelsFn env0
          (reqLabels [Value.num (Float64.ofInt 1), Value.str "x", Value.num (Float64.ofInt 3)])
        = ⟨[], Outcome.returned (ResultEnvelope.Failure "invalid label ID in labels array")⟩
    ∧ label.ReplaceIssueLabelsFn env0
          (reqLabels [Value.num (Float64.ofInt 1), Value.str "x", Value.num (Float64.ofInt 3)])
        = ⟨[], Outcome.returned (ResultEnvelope.Failure "invalid label ID in labels array")⟩ :=
  C5_invalid_label_fails_without_call env0
    (reqLabels [Value.num (Float64.ofInt 1), Value.str "x", Value.num (Float64.ofInt 3)])
    "acme" "widgets" (Float64.ofInt 7)
    [Value.num (Float64.ofInt 1), Value.str "x", Value.num (Float64.ofInt 3)]
    rfl rfl rfl rfl (by decide)

/-! ### Arguments of the wrong dynamic type (C6) -/

/-- A registration statement belongs to one of the five `init` functions. -/
theorem mem_registrations (r : tool.Registration) (h : r ∈ registrations) :
    r ∈ label.init ∨ r ∈ pull.init ∨ r ∈ repo.initBranch ∨ r ∈ repo.initFile ∨ r ∈ user.init := by
  simpa [registrations, or_assoc] using h

/-- A value that is not a string fails the assertion `.(string)`. -/
theorem asString_wrongKind (v : Value) (h : v.hasKind mcp.Kind.string = false) :
    asString (some v) = none := by
  cases v <;> simp_all [Value.hasKind, asString]

/-- A value that is not a number fails the assertion `.(float64)`. -/
theorem asFloat64_wrongKind (v : Value) (h : v.hasKind mcp.Kind.number = false) :
    asFloat64 (some v) = none := by
  cases v <;> simp_all [Value.hasKind, asFloat64]

/-- A value that is not a boolean fails the assertion `.(bool)`. -/
theorem asBool_wrongKind (v : Value) (h : v.hasKind mcp.Kind.boolean = false) :
    asBool (some v) = none := by
  cases v <;> simp_all [Value.hasKind, asBool]

/-- A value that is not an array fails the assertion `.([]interface{})`. -/
theorem asSlice_wrongKind (v : Value) (h : v.hasKind mcp.Kind.array = false) :
    asSlice (some v) = none := by
  cases v <;> simp_all [Value.hasKind, asSlice]

set_option maxHeartbeats 4000000 in
/-- In package `label`, an argument of the wrong dynamic type is read as an
absent one. -/
theorem wrongType_label (r : tool.Registration) (hr : r ∈ label.init)
    (p : mcp.ParameterSpec) (hp : p ∈ r.serverTool.Tool.Params) (env : Env) (req : Arguments)
    (v : Value) (hk : v.hasKind p.kind = false) (hl : req.lookup p.name = none) :
    r.serverTool.Handler env ((p.name, v) :: req) = r.serverTool.Handler env req := by
  simp only [label.init, List.mem_cons, List.mem_singleton, List.not_mem_nil, or_false] at hr
  rcases hr with rfl | rfl | rfl | rfl | rfl | rfl | rfl | rfl | rfl
  all_goals
    simp [tool.Registration.serverTool, label.ListRepoLabelsTool, label.GetRepoLabelTool,
      label.CreateRepoLabelTool, label.EditRepoLabelTool, label.DeleteRepoLabelTool,
      label.AddIssueLabelsTool, label.ReplaceIssueLabelsTool, label.ClearIssueLabelsTool,
      label.RemoveIssueLabelTool] at hp
    casesm* _ ∨ _
  all_goals
    subst_vars
    simp only at hl hk
    have h1 := fun h => asString_wrongKind v h
    have h2 := fun h => asFloat64_wrongKind v h
    have h3 := fun h => asBool_wrongKind v h
    have h4 := fun h => asSlice_wrongKind v h
    simp [tool.Registration.serverTool, label.ListRepoLabelsFn, label.GetRepoLabelFn,
      label.CreateRepoLabelFn, label.EditRepoLabelFn, label.DeleteRepoLabelFn,
      label.AddIssueLabelsFn, label.ReplaceIssueLabelsFn, label.ClearIssueLabelsFn,
      label.RemoveIssueLabelFn, List.lookup, hl, hk, h1, h2, h3, h4, asString_none,
      asFloat64_none, asBool_none, asSlice_none]

set_option maxHeartbeats 4000000 in
/-- In package `pull`, an argument of the wrong dynamic type is read as an
absent one. -/
theorem wrongType_pull (r : tool.Registration) (hr : r ∈ pull.init)
    (p : mcp.ParameterSpec) (hp : p ∈ r.serverTool.Tool.Params) (env : Env) (req : Arguments)
    (v : Value) (hk : v.hasKind p.kind = false) (hl : req.lookup p.name = none) :
    r.serverTool.Handler env ((p.name, v) :: req) = r.serverTool.Handler env req := by
  simp only [pull.init, List.mem_cons, List.mem_singleton, List.not_mem_nil, or_false] at hr
  rcases hr with rfl | rfl | rfl
  all_goals
    simp [tool.Registration.serverTool, pull.GetPullRequestByIndexTool,
      pull.ListRepoPullRequestsTool, pull.CreatePullRequestTool] at hp
    casesm* _ ∨ _
  all_goals
    subst_vars
    simp only at hl hk
    have h1 := fun h => asString_wrongKind v h
    have h2 := fun h => asFloat64_wrongKind v h
    have h3 := fun h => asBool_wrongKind v h
    have h4 := fun h => asSlice_wrongKind v h
    simp [tool.Registration.serverTool, pull.GetPullRequestByIndexFn,
      pull.ListRepoPullRequestsFn, pull.CreatePullRequestFn, List.lookup, hl, hk, h1, h2, h3, h4, asString_none,
      asFloat64_none, asBool_none, asSlice_none]

set_option maxHeartbeats 4000000 in
/-- In `branch.go`, an argument of the wrong dynamic type is read as an absent
one. -/
theorem wrongType_repo_branch (r : tool.Registration) (hr : r ∈ repo.initBranch)
    (p : mcp.ParameterSpec) (hp : p ∈ r.serverTool.Tool.Params) (env : Env) (req : Arguments)
    (v : Value) (hk : v.hasKind p.kind = false) (hl : req.lookup p.name = none) :
    r.serverTool.Handler env ((p.name, v) :: req) = r.serverTool.Handler env req := by
  simp only [repo.initBranch, List.mem_cons, List.mem_singleton, List.not_mem_nil,
    or_false] at hr
  rcases hr with rfl | rfl | rfl
  all_goals
    simp [tool.Registration.serverTool, repo.CreateBranchTool, repo.DeleteBranchTool,
      repo.ListBranchesTool] at hp
    casesm* _ ∨ _
  all_goals
    subst_vars
    simp only at hl hk
    have h1 := fun h => asString_wrongKind v h
    have h2 := fun h => asFloat64_wrongKind v h
    have h3 := fun h => asBool_wrongKind v h
    have h4 := fun h => asSlice_wrongKind v h
    simp [tool.Registration.serverTool, repo.CreateBranchFn, repo.DeleteBranchFn,
      repo.ListBranchesFn, List.lookup, hl, hk, h1, h2, h3, h4, asString_none,
      asFloat64_none, asBool_none, asSlice_none]

set_option maxHeartbeats 4000000 in
/-- In `file.go`, an argument of the wrong dynamic type is read as an absent
one. -/
theorem wrongType_repo_file (r : tool.Registration) (hr : r ∈ repo.initFile)
    (p : mcp.ParameterSpec) (hp : p ∈ r.serverTool.Tool.Params) (env : Env) (req : Arguments)
    (v : Value) (hk : v.hasKind p.kind = false) (hl : req.lookup p.name = none) :
    r.serverTool.Handler env ((p.name, v) :: req) = r.serverTool.Handler env req := by
  simp only [repo.initFile, List.mem_cons, List.mem_singleton, List.not_mem_nil, or_false] at hr
  rcases hr with rfl | rfl | rfl | rfl | rfl
  all_goals
    simp [tool.Registration.serverTool, repo.GetFileContentTool, repo.GetDirContentTool,
      repo.CreateFileTool, repo.UpdateFileTool, repo.DeleteFileTool] at hp
    casesm* _ ∨ _
  all_goals
    subst_vars
    simp only at hl hk
    have h1 := fun h => asString_wrongKind v h
    have h2 := fun h => asFloat64_wrongKind v h
    have h3 := fun h => asBool_wrongKind v h
    have h4 := fun h => asSlice_wrongKind v h
    simp [tool.Registration.serverTool, repo.GetFileContentFn, repo.GetDirContentFn,
      repo.CreateFileFn, repo.UpdateFileFn, repo.DeleteFileFn, List.lookup, hl, hk, h1, h2, h3, h4, asString_none,
      asFloat64_none, asBool_none, asSlice_none]

set_option maxHeartbeats 4000000 in
/-- In package `user`, an argument of the wrong dynamic type is read as an
absent one. -/
theorem wrongType_user (r : tool.Registration) (hr : r ∈ user.init)
    (p : mcp.ParameterSpec) (hp : p ∈ r.serverTool.Tool.Params) (env : Env) (req : Arguments)
    (v : Value) (hk : v.hasKind p.kind = false) (hl : req.lookup p.name = none) :
    r.serverTool.Handler env ((p.name, v) :: req) = r.serverTool.Handler env req := by
  simp only [user.init, user.registerTools, List.map, List.mem_cons, List.mem_singleton,
    List.not_mem_nil, or_false] at hr
  rcases hr with rfl | rfl
  all_goals
    simp [tool.Registration.serverTool, user.GetMyUserInfoTool, user.GetUserOrgsTool] at hp
  casesm* _ ∨ _
  all_goals
    subst_vars
    simp only at hl hk
    have h1 := fun h => asString_wrongKind v h
    have h2 := fun h => asFloat64_wrongKind v h
    have h3 := fun h => asBool_wrongKind v h
    have h4 := fun h => asSlice_wrongKind v h
    simp [tool.Registration.serverTool, user.GetUserOrgsFn, user.getIntArg, List.lookup,
      hl, hk, h1, h2, h3, h4, asString_none,
      asFloat64_none, asBool_none, asSlice_none]

/-- C6, counterexample: `page` of `list_repo_labels` is declared a number and
is given as the string `"2"`; the handler returns no Failure: it calls
`ListRepoLabels` with `Page = 1` and returns Success. -/
theorem C6_counterexample_page_as_string :
    ((label.ListRepoLabelsTool.Params.filter fun p => p.name == "page").map fun p => p.kind)
        = [mcp.Kind.number]
    ∧ Value.hasKind mcp.Kind.number (Value.str "2") = false
    ∧ validExcept label.ListRepoLabelsTool "page" (("page", Value.str "2") :: baseReq) = true
    ∧ label.ListRepoLabelsFn env0 (("page", Value.str "2") :: baseReq)
        = ⟨[Call.ListRepoLabels "acme" "widgets" ⟨1, 100⟩],
           Outcome.returned (ResultEnvelope.Success (Payload.data "{}"))⟩ := by
  refine ⟨by decide, by decide, by decide, by decide⟩

/-- C6, amended: for every registered tool and every parameter of its schema,
an argument whose dynamic type is not the declared kind is treated exactly as
an absent argument: the handler performs the same client calls and ends in the
same way as for the request without that argument (a Failure without client
call where the handler rejects the absence, the fallback value otherwise). -/
theorem C6_wrong_type_treated_as_absent (r : tool.Registration) (hr : r ∈ registrations)
    (p : mcp.ParameterSpec) (hp : p ∈ r.serverTool.Tool.Params) (env : Env) (req : Arguments)
    (v : Value) (hk : v.hasKind p.kind = false) (hl : req.lookup p.name = none) :
    r.serverTool.Handler env ((p.name, v) :: req) = r.serverTool.Handler env req := by
  rcases mem_registrations r hr with h | h | h | h | h
  · exact wrongType_label r h p hp env req v hk hl
  · exact wrongType_pull r h p hp env req v hk hl
  · exact wrongType_repo_branch r h p hp env req v hk hl
  · exact wrongType_repo_file r h p hp env req v hk hl
  · exact wrongType_user r h p hp env req v hk hl

/-- C6, amended, at a concrete input: `page = "2"` for `list_repo_labels`. -/
theorem C6_wrong_type_treated_as_absent_witness :
    label.ListRepoLabelsFn env0 (("page", Value.str "2") :: baseReq)
      = label.ListRepoLabelsFn env0 baseReq :=
  C6_wrong_type_treated_as_absent
    (tool.Registration.RegisterRead ⟨label.ListRepoLabelsTool, label.ListRepoLabelsFn⟩)
    (by simp [registrations, label.init])
    ⟨"page", mcp.Kind.number, false, some (Value.num (Float64.ofInt 1)), [], none, "page number"⟩
    (by simp [tool.Registration.serverTool, label.ListRepoLabelsTool])
    env0 baseReq (Value.str "2") rfl rfl

/-! ### Optional parameters without default (C7) -/

/-- A valid argument map holds a string for every Required string parameter. -/
theorem validExcept_lookup_string (t : mcp.Tool) (skip : String) (req : Arguments)
    (h : validExcept t skip req = true) (name : String)
    (hmem : (t.Params.any fun p => p.name == name && p.required && p.kind == mcp.Kind.string) = true)
    (hne : name ≠ skip) : ∃ s, req.lookup name = some (Value.str s) := by
  obtain ⟨p, hp, hcond⟩ := List.any_eq_true.mp hmem
  simp only [Bool.and_eq_true, beq_iff_eq] at hcond
  obtain ⟨⟨hn, hreq⟩, hkind⟩ := hcond
  have hall := List.all_eq_true.mp h p hp
  subst hn
  simp only [Bool.or_eq_true, beq_iff_eq, hne, false_or, argOk] at hall
  cases hlk : req.lookup p.name with
  | none => simp [hlk, hreq] at hall
  | some v =>
    cases v <;> simp [hlk, Value.validFor, Value.hasKind, hkind] at hall
    exact ⟨_, rfl⟩

/-- An omitted `description` of `create_repo_label` and an empty one give the
same run, which makes one client call once the required parameters are there. -/
theorem CreateRepoLabelFn_description (env : Env) (req : Arguments)
    (hl : req.lookup "description" = none) :
    label.CreateRepoLabelFn env (("description", Value.str "") :: req)
        = label.CreateRepoLabelFn env req
    ∧ (validExcept label.CreateRepoLabelTool "description" req = true →
        ∃ c, (label.CreateRepoLabelFn env req).calls = [c]) := by
  constructor
  · simp [label.CreateRepoLabelFn, List.lookup, asString, hl]
  · intro hv
    obtain ⟨owner, ho⟩ := validExcept_lookup_string _ _ _ hv "owner" (by decide) (by decide)
    obtain ⟨repoName, hr⟩ := validExcept_lookup_string _ _ _ hv "repo" (by decide) (by decide)
    obtain ⟨name, hn⟩ := validExcept_lookup_string _ _ _ hv "name" (by decide) (by decide)
    obtain ⟨color, hc⟩ := validExcept_lookup_string _ _ _ hv "color" (by decide) (by decide)
    simp only [label.CreateRepoLabelFn, ho, hr, hn, hc, asString_str]
    split <;> exact ⟨_, rfl⟩

/-- The argument `new_branch_name` is never read by `CreateFileFn`, which makes
one client call once `owner`, `repo` and `filePath` are there. -/
theorem CreateFileFn_new_branch_name (env : Env) (req : Arguments) (v : Value) :
    repo.CreateFileFn env (("new_branch_name", v) :: req) = repo.CreateFileFn env req
    ∧ (validExcept repo.CreateFileTool "new_branch_name" req = true →
        ∃ c, (repo.CreateFileFn env req).calls = [c]) := by
  constructor
  · simp [repo.CreateFileFn, List.lookup]
  · intro hv
    obtain ⟨owner, ho⟩ := validExcept_lookup_string _ _ _ hv "owner" (by decide) (by decide)
    obtain ⟨repoName, hr⟩ := validExcept_lookup_string _ _ _ hv "repo" (by decide) (by decide)
    obtain ⟨filePath, hf⟩ :=
      validExcept_lookup_string _ _ _ hv "filePath" (by decide) (by decide)
    simp only [repo.CreateFileFn, ho, hr, hf, asString_str]
    split <;> exact ⟨_, rfl⟩

/-- C8, counterexample: for `name`, `color` and `description` of
`edit_repo_label`, for `sort` of
`list_repo_pull_requests` and for `sha` of `delete_file`, the request that
omits the optional string and the request that sets it to the empty string lead
to different client calls or results. -/
theorem C8_counterexample_omitted_differs_from_empty :
    ((label.EditRepoLabelFn env0 reqEdit).calls
        = [Call.EditLabel "acme" "widgets" 5 ⟨none, none, none⟩]
      ∧ (label.EditRepoLabelFn env0 (("name", Value.str "") :: reqEdit)).calls
        = [Call.EditLabel "acme" "widgets" 5 ⟨some "", none, none⟩]
      ∧ (label.EditRepoLabelFn env0 (("color", Value.str "") :: reqEdit)).calls
        = [Call.EditLabel "acme" "widgets" 5 ⟨none, some "", none⟩]
      ∧ (label.EditRepoLabelFn env0 (("description", Value.str "") :: reqEdit)).calls
        = [Call.EditLabel "acme" "widgets" 5 ⟨none, none, some ""⟩])
    ∧ ((pull.ListRepoPullRequestsFn env0 baseReq).calls
        = [Call.ListRepoPullRequests "acme" "widgets" ⟨"", "recentupdate", 0, ⟨1, 100⟩⟩]
      ∧ (pull.ListRepoPullRequestsFn env0 (("sort", Value.str "") :: baseReq)).calls
        = [Call.ListRepoPullRequests "acme" "widgets" ⟨"", "", 0, ⟨1, 100⟩⟩])
    ∧ (repo.DeleteFileFn env0 reqDeleteNoSha
        = ⟨[], Outcome.returned (ResultEnvelope.Failure "sha is required")⟩
      ∧ repo.DeleteFileFn env0 (("sha", Value.str "") :: reqDeleteNoSha)
        = ⟨[Call.DeleteFile "acme" "widgets" "a.txt" ⟨"remove", "main", ""⟩ ""],
           Outcome.returned (ResultEnvelope.Success (Payload.text "Delete file success"))⟩) := by
  refine ⟨⟨by decide, by decide, by decide, by decide⟩, ⟨by decide, by decide⟩,
    ⟨by decide, by decide⟩⟩

set_option maxHeartbeats 4000000 in
/-- C8, amended: for every registered tool and every optional string parameter
other than `name`, `color`, `description` of `edit_repo_label`, `state` and
`sort` of `list_repo_pull_requests` and `sha` of `delete_file`, the request that
sets the parameter to the empty string leads to the same client calls and the
same result as the request that omits it.  The parameters that remain are
`description` of `create_repo_label` and `new_branch_name` of `create_file`.
Nothing is stated about `state`: what the handler passes when `state` is
omitted is the subject of C2. -/
theorem C8_omitted_equals_empty_string (r : tool.Registration) (hr : r ∈ registrations)
    (p : mcp.ParameterSpec) (hp : p ∈ r.serverTool.Tool.Params)
    (hk : p.kind = mcp.Kind.string) (hopt : p.required = false)
    (hne : (r.serverTool.Tool.Name, p.name) ∉
      [("edit_repo_label", "name"), ("edit_repo_label", "color"),
       ("edit_repo_label", "description"), ("list_repo_pull_requests", "state"),
       ("list_repo_pull_requests", "sort"), ("delete_file", "sha")])
    (env : Env) (req : Arguments) (hl : req.lookup p.name = none) :
    r.serverTool.Handler env ((p.name, Value.str "") :: req) = r.serverTool.Handler env req := by
  rcases mem_registrations r hr with h | h | h | h | h
  · simp only [label.init, List.mem_cons, List.mem_singleton, List.not_mem_nil, or_false] at h
    rcases h with rfl | rfl | rfl | rfl | rfl | rfl | rfl | rfl | rfl
    all_goals
      simp [tool.Registration.serverTool, label.ListRepoLabelsTool, label.GetRepoLabelTool,
        label.CreateRepoLabelTool, label.EditRepoLabelTool, label.DeleteRepoLabelTool,
        label.AddIssueLabelsTool, label.ReplaceIssueLabelsTool, label.ClearIssueLabelsTool,
        label.RemoveIssueLabelTool] at hp
      casesm* _ ∨ _
    all_goals
      subst_vars
      first
      | exact absurd hopt (by decide)
      | exact absurd hk (by decide)
      | exact (CreateRepoLabelFn_description env req hl).1
      | exact absurd (by decide) hne
  · simp only [pull.init, List.mem_cons, List.mem_singleton, List.not_mem_nil, or_false] at h
    rcases h with rfl | rfl | rfl
    all_goals
      simp [tool.Registration.serverTool, pull.GetPullRequestByIndexTool,
        pull.ListRepoPullRequestsTool, pull.CreatePullRequestTool] at hp
      casesm* _ ∨ _
    all_goals
      subst_vars
      first
      | exact absurd hopt (by decide)
      | exact absurd hk (by decide)
      | exact absurd (by decide) hne
  · simp only [repo.initBranch, List.mem_cons, List.mem_singleton, List.not_mem_nil,
      or_false] at h
    rcases h with rfl | rfl | rfl
    all_goals
      simp [tool.Registration.serverTool, repo.CreateBranchTool, repo.DeleteBranchTool,
        repo.ListBranchesTool] at hp
      casesm* _ ∨ _
    all_goals
      subst_vars
      exact absurd hopt (by decide)
  · simp only [repo.initFile, List.mem_cons, List.mem_singleton, List.not_mem_nil,
      or_false] at h
    rcases h with rfl | rfl | rfl | rfl | rfl
    all_goals
      simp [tool.Registration.serverTool, repo.GetFileContentTool, repo.GetDirContentTool,
        repo.CreateFileTool, repo.UpdateFileTool, repo.DeleteFileTool] at hp
      casesm* _ ∨ _
    all_goals
      subst_vars
      first
      | exact absurd hopt (by decide)
      | exact absurd hk (by decide)
      | exact (CreateFileFn_new_branch_name env req (Value.str "")).1
      | exact absurd (by decide) hne
  · simp only [user.init, user.registerTools, List.map, List.mem_cons, List.mem_singleton,
      List.not_mem_nil, or_false] at h
    rcases h with rfl | rfl
    all_goals
      simp [tool.Registration.serverTool, user.GetMyUserInfoTool, user.GetUserOrgsTool] at hp
    casesm* _ ∨ _
    all_goals
      subst_vars
      exact absurd hk (by decide)

/-- C8, amended, at a concrete input: `description` of `create_repo_label`. -/
theorem C8_omitted_equals_empty_string_witness :
    label.CreateRepoLabelFn env0 (("description", Value.str "") ::
        (baseReq ++ [("name", Value.str "bug"), ("color", Value.str "#ff0000")]))
      = label.CreateRepoLabelFn env0
        (baseReq ++ [("name", Value.str "bug"), ("color", Value.str "#ff0000")]) :=
  C8_omitted_equals_empty_string
    (tool.Registration.RegisterWrite ⟨label.CreateRepoLabelTool, label.CreateRepoLabelFn⟩)
    (by simp [registrations, label.init])
    ⟨"description", mcp.Kind.string, false, none, [], none, "label description"⟩
    (by simp [tool.Registration.serverTool, label.CreateRepoLabelTool])
    rfl rfl (by decide) env0
    (baseReq ++ [("name", Value.str "bug"), ("color", Value.str "#ff0000")]) rfl

/-! ### Conversion of numeric identifiers (C9) -/

/-- Within the 64-bit range the conversion is the truncation. -/
theorem toInt64_of_inRange (env : Env) (f : Float64) (h : f.inInt64Range = true) :
    toInt64 env f = f.trunc := by
  simp [toInt64, h]

/-- On an array of numbers the loop of `AddIssueLabelsFn` appends the converted
elements in order. -/
theorem AddIssueLabelsFn_loop_nums (env : Env) (fs : List Float64) (acc : List Int) :
    label.AddIssueLabelsFn.loop env (fs.map Value.num) acc
      = some (acc ++ fs.map (toInt64 env)) := by
  induction fs generalizing acc with
  | nil => simp [label.AddIssueLabelsFn.loop]
  | cons f rest ih => simp [label.AddIssueLabelsFn.loop, asFloat64, ih]

/-- C9, counterexample: the label ID 1.5 is not integral, and `GetRepoLabelFn`
passes it to the client as 1. -/
theorem C9_counterexample_fraction_truncated :
    onePointFive.isIntegral = false
    ∧ onePointFive.trunc = 1
    ∧ label.GetRepoLabelFn env0 (baseReq ++ [("id", Value.num onePointFive)])
        = ⟨[Call.GetRepoLabel "acme" "widgets" 1],
           Outcome.returned (ResultEnvelope.Success (Payload.data "{}"))⟩ := by
  refine ⟨by decide, by decide, by decide⟩

/-- On an array of numbers the loop of `ReplaceIssueLabelsFn` appends the
converted elements in order. -/
theorem ReplaceIssueLabelsFn_loop_nums (env : Env) (fs : List Float64) (acc : List Int) :
    label.ReplaceIssueLabelsFn.loop env (fs.map Value.num) acc
      = some (acc ++ fs.map (toInt64 env)) := by
  induction fs generalizing acc with
  | nil => simp [label.ReplaceIssueLabelsFn.loop]
  | cons f rest ih => simp [label.ReplaceIssueLabelsFn.loop, asFloat64, ih]

/-- C9, amended: the handlers convert a numeric ID or index to an integer by
dropping the fractional part, with no test of integrality.  When `owner` and
`repo` are strings and the number is within the 64-bit range, the integer
passed to the client is the truncation toward zero of the argument: for `id`
(`get_repo_label`, `edit_repo_label`, `delete_repo_label`), for `index`
(`get_pull_request_by_index`, `clear_issue_labels`, `remove_issue_label`,
`add_issue_labels`, `replace_issue_labels`), for `label_id`, for the elements
of `labels`, and for `milestone`. -/
theorem C9_numeric_argument_truncated (env : Env) (req : Arguments) (owner repoName : String)
    (f : Float64) (ho : req.lookup "owner" = some (Value.str owner))
    (hr : req.lookup "repo" = some (Value.str repoName)) (hf : f.inInt64Range = true) :
    (req.lookup "id" = some (Value.num f) →
        (label.GetRepoLabelFn env req).calls = [Call.GetRepoLabel owner repoName f.trunc]
        ∧ (label.DeleteRepoLabelFn env req).calls = [Call.DeleteLabel owner repoName f.trunc]
        ∧ ∃ opt, (label.EditRepoLabelFn env req).calls
            = [Call.EditLabel owner repoName f.trunc opt])
    ∧ (req.lookup "index" = some (Value.num f) →
        (pull.GetPullRequestByIndexFn env req).calls
          = [Call.GetPullRequest owner repoName f.trunc]
        ∧ (label.ClearIssueLabelsFn env req).calls
          = [Call.ClearIssueLabels owner repoName f.trunc])
    ∧ (∀ g : Float64, g.inInt64Range = true → req.lookup "index" = some (Value.num g) →
        req.lookup "label_id" = some (Value.num f) →
        (label.RemoveIssueLabelFn env req).calls
          = [Call.DeleteIssueLabel owner repoName g.trunc f.trunc])
    ∧ (∀ fs : List Float64, (∀ g ∈ fs, g.inInt64Range = true) →
        req.lookup "index" = some (Value.num f) →
        req.lookup "labels" = some (Value.arr (fs.map Value.num)) →
        (label.AddIssueLabelsFn env req).calls
          = [Call.AddIssueLabels owner repoName f.trunc (fs.map Float64.trunc)]
        ∧ (label.ReplaceIssueLabelsFn env req).calls
          = [Call.ReplaceIssueLabels owner repoName f.trunc (fs.map Float64.trunc)])
    ∧ (req.lookup "milestone" = some (Value.num f) →
        ∃ opt, (pull.ListRepoPullRequestsFn env req).calls
            = [Call.ListRepoPullRequests owner repoName opt] ∧ opt.Milestone = f.trunc) := by
  have hfe := toInt64_of_inRange env f hf
  refine ⟨?_, ?_, ?_, ?_, ?_⟩
  · intro hi
    refine ⟨?_, ?_, ?_⟩
    · simp only [label.GetRepoLabelFn, ho, hr, hi, asString_str, asFloat64_num, hfe]
      split <;> rfl
    · simp only [label.DeleteRepoLabelFn, ho, hr, hi, asString_str, asFloat64_num, hfe]
      split <;> rfl
    · simp only [label.EditRepoLabelFn, ho, hr, hi, asString_str, asFloat64_num, hfe]
      split <;> exact ⟨_, rfl⟩
  · intro hi
    refine ⟨?_, ?_⟩
    · simp only [pull.GetPullRequestByIndexFn, ho, hr, hi, asString_str, asFloat64_num, hfe]
      split <;> rfl
    · simp only [label.ClearIssueLabelsFn, ho, hr, hi, asString_str, asFloat64_num, hfe]
      split <;> rfl
  · intro g hg hi hl
    have hge := toInt64_of_inRange env g hg
    simp only [label.RemoveIssueLabelFn, ho, hr, hi, hl, asString_str, asFloat64_num, hfe, hge]
    split <;> rfl
  · intro fs hfs hi hl
    have hmap : fs.map (toInt64 env) = fs.map Float64.trunc :=
      List.map_congr_left fun g hg => toInt64_of_inRange env g (hfs g hg)
    refine ⟨?_, ?_⟩
    · simp only [label.AddIssueLabelsFn, ho, hr, hi, hl, asString_str, asFloat64_num,
        asSlice_arr, AddIssueLabelsFn_loop_nums, List.nil_append, hmap, hfe]
      split <;> rfl
    · simp only [label.ReplaceIssueLabelsFn, ho, hr, hi, hl, asString_str, asFloat64_num,
        asSlice_arr, ReplaceIssueLabelsFn_loop_nums, List.nil_append, hmap, hfe]
      split <;> rfl
  · intro hm
    simp only [pull.ListRepoPullRequestsFn, ho, hr, hm, asString_str, asFloat64_num,
      Option.getD_some, hfe]
    split <;> exact ⟨_, rfl, rfl⟩

/-- C9, amended, at a concrete input: the label ID 1.5 reaches the client
as 1. -/
theorem C9_numeric_argument_truncated_witness :
    (label.GetRepoLabelFn env0 (baseReq ++ [("id", Value.num onePointFive)])).calls
      = [Call.GetRepoLabel "acme" "widgets" onePointFive.trunc] :=
  (C9_numeric_argument_truncated env0 (baseReq ++ [("id", Value.num onePointFive)])
    "acme" "widgets" onePointFive rfl rfl (by decide)).1 rfl |>.1

/-! ### Read and write registrations (C10) -/

set_option maxHeartbeats 4000000 in
/-- In package `label`, a handler performs state-changing client operations
exactly when it is registered through `RegisterWrite`. -/
theorem calls_label (r : tool.Registration) (hr : r ∈ label.init) (env : Env) (req : Arguments)
    (c : Call) (hc : c ∈ (r.serverTool.Handler env req).calls) : c.isMutating = r.isWrite := by
  simp only [label.init, List.mem_cons, List.mem_singleton, List.not_mem_nil, or_false] at hr
  rcases hr with rfl | rfl | rfl | rfl | rfl | rfl | rfl | rfl | rfl
  all_goals
    simp only [tool.Registration.serverTool, label.ListRepoLabelsFn, label.GetRepoLabelFn,
      label.CreateRepoLabelFn, label.EditRepoLabelFn, label.DeleteRepoLabelFn,
      label.AddIssueLabelsFn, label.ReplaceIssueLabelsFn, label.ClearIssueLabelsFn,
      label.RemoveIssueLabelFn] at hc
    repeat' split at hc
  all_goals
    simp [ret, retAfter] at hc
  all_goals
    subst hc
    rfl

set_option maxHeartbeats 4000000 in
/-- The same for package `pull`. -/
theorem calls_pull (r : tool.Registration) (hr : r ∈ pull.init) (env : Env) (req : Arguments)
    (c : Call) (hc : c ∈ (r.serverTool.Handler env req).calls) : c.isMutating = r.isWrite := by
  simp only [pull.init, List.mem_cons, List.mem_singleton, List.not_mem_nil, or_false] at hr
  rcases hr with rfl | rfl | rfl
  all_goals
    simp only [tool.Registration.serverTool, pull.GetPullRequestByIndexFn,
      pull.ListRepoPullRequestsFn, pull.CreatePullRequestFn] at hc
    repeat' split at hc
  all_goals
    simp [ret, retAfter] at hc
  all_goals
    subst hc
    rfl

set_option maxHeartbeats 4000000 in
/-- The same for `branch.go`. -/
theorem calls_repo_branch (r : tool.Registration) (hr : r ∈ repo.initBranch) (env : Env)
    (req : Arguments) (c : Call) (hc : c ∈ (r.serverTool.Handler env req).calls) :
    c.isMutating = r.isWrite := by
  simp only [repo.initBranch, List.mem_cons, List.mem_singleton, List.not_mem_nil,
    or_false] at hr
  rcases hr with rfl | rfl | rfl
  all_goals
    simp only [tool.Registration.serverTool, repo.CreateBranchFn, repo.DeleteBranchFn,
      repo.ListBranchesFn] at hc
    repeat' split at hc
  all_goals
    simp [ret, retAfter] at hc
  all_goals
    subst hc
    rfl

set_option maxHeartbeats 4000000 in
/-- The same for `file.go`. -/
theorem calls_repo_file (r : tool.Registration) (hr : r ∈ repo.initFile) (env : Env)
    (req : Arguments) (c : Call) (hc : c ∈ (r.serverTool.Handler env req).calls) :
    c.isMutating = r.isWrite := by
  simp only [repo.initFile, List.mem_cons, List.mem_singleton, List.not_mem_nil, or_false] at hr
  rcases hr with rfl | rfl | rfl | rfl | rfl
  all_goals
    simp only [tool.Registration.serverTool, repo.GetFileContentFn, repo.GetDirContentFn,
      repo.CreateFileFn, repo.UpdateFileFn, repo.DeleteFileFn] at hc
    repeat' split at hc
  all_goals
    simp [ret, retAfter] at hc
  all_goals
    subst hc
    rfl

set_option maxHeartbeats 4000000 in
/-- The same for package `user`. -/
theorem calls_user (r : tool.Registration) (hr : r ∈ user.init) (env : Env) (req : Arguments)
    (c : Call) (hc : c ∈ (r.serverTool.Handler env req).calls) : c.isMutating = r.isWrite := by
  simp only [user.init, user.registerTools, List.map, List.mem_cons, List.mem_singleton,
    List.not_mem_nil, or_false] at hr
  rcases hr with rfl | rfl
  all_goals
    simp only [tool.Registration.serverTool, user.GetUserInfoFn, user.GetUserOrgsFn] at hc
    repeat' split at hc
  all_goals
    simp [ret, retAfter] at hc
  all_goals
    subst hc
    rfl

/-- Every client operation a registered handler performs is state-changing
exactly when the handler is registered through `RegisterWrite`. -/
theorem calls_match_registration (r : tool.Registration) (hr : r ∈ registrations) (env : Env)
    (req : Arguments) (c : Call) (hc : c ∈ (r.serverTool.Handler env req).calls) :
    c.isMutating = r.isWrite := by
  rcases mem_registrations r hr with h | h | h | h | h
  · exact calls_label r h env req c hc
  · exact calls_pull r h env req c hc
  · exact calls_repo_branch r h env req c hc
  · exact calls_repo_file r h env req c hc
  · exact calls_user r h env req c hc

/-- C10: the tools registered through `RegisterRead` are the nine named below;
every client operation performed by a handler registered through
`RegisterRead` is an observing one; a handler that performs a state-changing
client operation is registered through `RegisterWrite`; and `delete_branch` is
registered once, through `RegisterWrite`. -/
theorem C10_read_catalog_has_no_mutating_tool :
    ((registrations.filter fun r => !r.isWrite).map fun r => r.serverTool.Tool.Name)
        = ["list_repo_labels", "get_repo_label", "get_pull_request_by_index",
           "list_repo_pull_requests", "list_branches", "get_file_content", "get_dir_content",
           "get_my_user_info", "get_user_orgs"]
    ∧ (∀ r ∈ registrations, r.isWrite = false →
        ∀ (env : Env) (req : Arguments), ∀ c ∈ (r.serverTool.Handler env req).calls,
          c.isMutating = false)
    ∧ (∀ r ∈ registrations, ∀ (env : Env) (req : Arguments),
        (∃ c ∈ (r.serverTool.Handler env req).calls, c.isMutating = true) → r.isWrite = true)
    ∧ ((registrations.filter fun r => r.serverTool.Tool.Name == "delete_branch").map
        fun r => r.isWrite) = [true] := by
  refine ⟨by decide, ?_, ?_, by decide⟩
  · intro r hr hw env req c hc
    rw [calls_match_registration r hr env req c hc, hw]
  · intro r hr env req ⟨c, hc, hm⟩
    rw [← calls_match_registration r hr env req c hc, hm]

/-! ### Order of the parameter checks (C11) -/

/-- C11, at a failing input: `GetFileContentTool` and `GetDirContentTool`
declare `ref` before `filePath`, both Required; for the request `{owner, repo}`,
which lacks both, the Failure of `GetFileContentFn` and of `GetDirContentFn` is
about `filePath`, not about `ref`. -/
theorem C11_failure_names_later_parameter :
    ((repo.GetFileContentTool.Params.map fun p => (p.name, p.required))
        = [("owner", true), ("repo", true), ("ref", true), ("filePath", true), ("withLines", false)]
      ∧ List.lookup "ref" baseReq = none
      ∧ List.lookup "filePath" baseReq = none
      ∧ repo.GetFileContentFn env0 baseReq
          = ⟨[], Outcome.returned (ResultEnvelope.Failure "filePath is required")⟩)
    ∧ ((repo.GetDirContentTool.Params.map fun p => (p.name, p.required))
        = [("owner", true), ("repo", true), ("ref", true), ("filePath", true)]
      ∧ repo.GetDirContentFn env0 baseReq
          = ⟨[], Outcome.returned (ResultEnvelope.Failure "filePath is required")⟩) := by
  refine ⟨⟨by decide, rfl, rfl, by decide⟩, ⟨by decide, by decide⟩⟩

/-! ### The scenario of `list_repo_labels` (C12) -/

/-- C12: for all strings `owner` and `repo`, `ListRepoLabelsFn` on the argument
map holding exactly `owner` and `repo` passes the argument checks and makes the
single client call `ListRepoLabels owner repo` with `Page = 1` and
`PageSize = 100`; its result is the Success wrapping the labels when the client
answers, and a Failure only when the client fails. -/
theorem C12_list_repo_labels_defaults (env : Env) (owner repoName : String) :
    (label.ListRepoLabelsFn env
        [("owner", Value.str owner), ("repo", Value.str repoName)]).calls
      = [Call.ListRepoLabels owner repoName ⟨1, 100⟩]
    ∧ (∀ labels, env.client (Call.ListRepoLabels owner repoName ⟨1, 100⟩) = Except.ok labels →
        (label.ListRepoLabelsFn env
            [("owner", Value.str owner), ("repo", Value.str repoName)]).out
          = Outcome.returned (ResultEnvelope.Success (Payload.data labels)))
    ∧ ((label.ListRepoLabelsFn env
          [("owner", Value.str owner), ("repo", Value.str repoName)]).isFailure = true →
        ∃ err, env.client (Call.ListRepoLabels owner repoName ⟨1, 100⟩) = Except.error err) := by
  have h1 : toInt64 env (Float64.ofInt 1) = 1 := by
    rw [toInt64_of_inRange env _ (by decide)]; decide
  have h100 : toInt64 env (Float64.ofInt 100) = 100 := by
    rw [toInt64_of_inRange env _ (by decide)]; decide
  have hfn : label.ListRepoLabelsFn env
        [("owner", Value.str owner), ("repo", Value.str repoName)]
      = match env.client (Call.ListRepoLabels owner repoName ⟨1, 100⟩) with
        | Except.error err =>
          retAfter (Call.ListRepoLabels owner repoName ⟨1, 100⟩)
            (To.ErrorResult ("list " ++ owner ++ "/" ++ repoName ++ "/labels err: " ++ err))
        | Except.ok labels =>
          retAfter (Call.ListRepoLabels owner repoName ⟨1, 100⟩)
            (To.TextResult (Payload.data labels)) := by
    simp [label.ListRepoLabelsFn, List.lookup, asString, asFloat64, h1, h100]
  rw [hfn]
  refine ⟨?_, ?_, ?_⟩
  · split <;> rfl
  · intro labels hl
    rw [hl]
    rfl
  · intro hf
    split at hf
    · rename_i err herr
      exact ⟨err, herr⟩
    · simp [retAfter, Exec.isFailure, To.TextResult] at hf

/-- C12, at the input of the scenario: `owner = "acme"`, `repo = "widgets"`. -/
theorem C12_list_repo_labels_defaults_witness :
    (label.ListRepoLabelsFn env0
        [("owner", Value.str "acme"), ("repo", Value.str "widgets")]).calls
      = [Call.ListRepoLabels "acme" "widgets" ⟨1, 100⟩] :=
  (C12_list_repo_labels_defaults env0 "acme" "widgets").1

/-! ### `getIntArg` (C13) -/

/-- A float64 that is not below 1 truncates to an integer that is at least 1. -/
theorem trunc_ge_one_of_not_lt (f : Float64) (h : f.ltInt 1 = false) : 1 ≤ f.trunc := by
  unfold Float64.ltInt at h
  unfold Float64.trunc
  split
  · rename_i hexp
    simp only [hexp, if_true, decide_eq_false_iff_not, not_lt] at h
    exact h
  · rename_i hexp
    simp only [hexp, if_false, decide_eq_false_iff_not, not_lt, one_mul] at h
    have hpos : (0 : Int) < 2 ^ (-f.exp).toNat := by positivity
    have hm : (0 : Int) ≤ f.mant := le_trans (le_of_lt hpos) h
    rw [Int.tdiv_eq_ediv hm (le_of_lt hpos)]
    exact Int.le_ediv_of_mul_le hpos (by simpa using h)

/-- A float64 that is not below 1 and whose truncation is below `2 ^ 63` is
converted by `toInt64` to its truncation. -/
theorem toInt64_of_ge_one_of_lt (env : Env) (f : Float64) (h : f.ltInt 1 = false)
    (hlim : f.trunc < 2 ^ 63) : toInt64 env f = f.trunc := by
  apply toInt64_of_inRange
  have h1 := trunc_ge_one_of_not_lt f h
  unfold Float64.inInt64Range
  exact decide_eq_true ⟨by omega, hlim⟩

/-- C13, counterexample: the `page` argument `2 ^ 63` is a number that is not
below 1, its truncation is `2 ^ 63`, and with the out-of-range conversion of
amd64 `getIntArg` returns `-2 ^ 63`: not the truncation and not at least 1,
although the default is 1; `GetUserOrgsFn` passes that value as `Page`. -/
theorem C13_counterexample_out_of_range :
    twoPow63.ltInt 1 = false
    ∧ twoPow63.trunc = 9223372036854775808
    ∧ user.getIntArg env0 [("page", Value.num twoPow63)] "page" 1 = -9223372036854775808
    ∧ (user.GetUserOrgsFn env0 [("page", Value.num twoPow63)]).calls
        = [Call.ListMyOrgs ⟨-9223372036854775808, 100⟩] := by
  refine ⟨by decide, by decide, by decide, by decide⟩

/-- C13, amended: for every request, parameter name and default, `getIntArg`
returns the default when the argument is missing or not a number, returns the
default when the argument is below 1 (however far below), and returns the
integer truncation of the argument, which is at least 1, when the argument is
at least 1 and its truncation is below `2 ^ 63`.  Hence, whenever the default
is at least 1 and the argument read is not a number whose truncation is
`2 ^ 63` or more, the result is at least 1.  `GetUserOrgsFn` always makes the
single call `ListMyOrgs` with the two values of `getIntArg`; `Page` is at
least 1 unless `page` is a number whose truncation is `2 ^ 63` or more, and
`PageSize` is at least 1 unless `pageSize` is such a number.  Arguments under
other keys do not matter. -/
theorem C13_getIntArg_in_range (env : Env) (req : Arguments) :
    (∀ name dflt, asFloat64 (req.lookup name) = none →
        user.getIntArg env req name dflt = dflt)
    ∧ (∀ name dflt val, req.lookup name = some (Value.num val) → val.ltInt 1 = true →
        user.getIntArg env req name dflt = dflt)
    ∧ (∀ name dflt val, req.lookup name = some (Value.num val) → val.ltInt 1 = false →
        val.trunc < 2 ^ 63 →
        user.getIntArg env req name dflt = val.trunc ∧ 1 ≤ val.trunc)
    ∧ (∀ name dflt, 1 ≤ dflt →
        (∀ val, req.lookup name = some (Value.num val) → val.trunc < 2 ^ 63) →
        1 ≤ user.getIntArg env req name dflt)
    ∧ (∃ opt, (user.GetUserOrgsFn env req).calls = [Call.ListMyOrgs opt]
        ∧ opt.Page = user.getIntArg env req "page" user.defaultPage
        ∧ opt.PageSize = user.getIntArg env req "pageSize" user.defaultPageSize
        ∧ ((∀ val, req.lookup "page" = some (Value.num val) → val.trunc < 2 ^ 63) →
            1 ≤ opt.Page)
        ∧ ((∀ val, req.lookup "pageSize" = some (Value.num val) → val.trunc < 2 ^ 63) →
            1 ≤ opt.PageSize)) := by
  have h3 : ∀ name dflt val, req.lookup name = some (Value.num val) → val.ltInt 1 = false →
      val.trunc < 2 ^ 63 →
      user.getIntArg env req name dflt = val.trunc ∧ 1 ≤ val.trunc := by
    intro name dflt val hl hlt hlim
    refine ⟨?_, trunc_ge_one_of_not_lt val hlt⟩
    simp [user.getIntArg, hl, asFloat64_num, hlt, toInt64_of_ge_one_of_lt env val hlt hlim]
  have h4 : ∀ name dflt, 1 ≤ dflt →
      (∀ val, req.lookup name = some (Value.num val) → val.trunc < 2 ^ 63) →
      1 ≤ user.getIntArg env req name dflt := by
    intro name dflt hd hlim
    cases hl : req.lookup name with
    | none => simpa [user.getIntArg, hl, asFloat64_none] using hd
    | some v =>
      cases v with
      | num val =>
        cases hlt : val.ltInt 1 with
        | true => simpa [user.getIntArg, hl, asFloat64_num, hlt] using hd
        | false =>
          rw [(h3 name dflt val hl hlt (hlim val hl)).1]
          exact (h3 name dflt val hl hlt (hlim val hl)).2
      | _ => simpa [user.getIntArg, hl, asFloat64] using hd
  refine ⟨?_, ?_, h3, h4, ?_⟩
  · intro name dflt hn
    simp [user.getIntArg, hn]
  · intro name dflt val hl hlt
    simp [user.getIntArg, hl, asFloat64_num, hlt]
  · have hp := h4 "page" user.defaultPage (by decide)
    have hs := h4 "pageSize" user.defaultPageSize (by decide)
    simp only [user.GetUserOrgsFn]
    split <;> exact ⟨_, rfl, rfl, rfl, hp, hs⟩

/-- C13, amended, at concrete inputs.  With `page = 1.5` and `pageSize`
missing, `GetUserOrgsFn` calls `ListMyOrgs` with `Page = 1`, the truncation, and
`PageSize = 100`, the default.  With `page = -2 ^ 64`, far below the 64-bit
range, `getIntArg` returns the default. -/
theorem C13_getIntArg_in_range_witness :
    (user.GetUserOrgsFn env0 [("page", Value.num onePointFive)]).calls
        = [Call.ListMyOrgs ⟨1, 100⟩]
    ∧ user.getIntArg env0 [("page", Value.num onePointFive)] "page" 7 = 1
    ∧ 1 ≤ user.getIntArg env0 [("page", Value.num onePointFive)] "page" 7
    ∧ user.getIntArg env0 [("page", Value.num ⟨-1, 64⟩)] "page" 7 = 7 :=
  ⟨by decide,
   ((C13_getIntArg_in_range env0 [("page", Value.num onePointFive)]).2.2.1
      "page" 7 onePointFive rfl (by decide) (by decide)).1,
   (C13_getIntArg_in_range env0 [("page", Value.num onePointFive)]).2.2.2.1 "page" 7
      (by decide)
      (fun val h => by
        have hv : onePointFive = val := Value.num.inj (Option.some.inj h)
        subst hv
        decide),
   (C13_getIntArg_in_range env0 [("page", Value.num ⟨-1, 64⟩)]).2.1
      "page" 7 ⟨-1, 64⟩ rfl (by decide)⟩

/-! ### Tool names (C14) -/

/-- C14: the names registered by the `init` functions are pairwise distinct; no
name is registered both through `RegisterRead` and through `RegisterWrite`; and
a name is registered through one of the two exactly when it is one of the
declared tool name constants. -/
theorem C14_tool_names_distinct :
    (registrations.map fun r => r.serverTool.Tool.Name).Nodup
    ∧ (∀ n, n ∈ readNames → n ∉ writeNames)
    ∧ (∀ n, (n ∈ readNames ∨ n ∈ writeNames) ↔ n ∈ toolNameConstants)
    ∧ toolNameConstants.Nodup
    ∧ readNames.length + writeNames.length = toolNameConstants.length := by
  refine ⟨by decide, ?_, ?_, by decide, by decide⟩
  · have h : readNames.all (fun n => !writeNames.contains n) = true := by decide
    intro n hn hw
    have := List.all_eq_true.mp h n hn
    simp [hw] at this
  · have h1 : (readNames ++ writeNames).all (fun n => toolNameConstants.contains n) = true := by
      decide
    have h2 : toolNameConstants.all (fun n => (readNames ++ writeNames).contains n) = true := by
      decide
    intro n
    constructor
    · intro hn
      have := List.all_eq_true.mp h1 n (by simpa using hn)
      simpa using this
    · intro hn
      have := List.all_eq_true.mp h2 n hn
      simpa using this

/-! ### Errors of the client (C15) -/

set_option maxHeartbeats 4000000 in
/-- In package `label`, a client operation that fails makes the handler return a
Failure whose message ends with the text of the error. -/
theorem clientError_label (r : tool.Registration) (hr : r ∈ label.init) (env : Env)
    (req : Arguments) (c : Call) (err : String)
    (hc : c ∈ (r.serverTool.Handler env req).calls) (he : env.errorOf c = some err) :
    ∃ pre, (r.serverTool.Handler env req).out
      = Outcome.returned (ResultEnvelope.Failure (pre ++ err)) := by
  simp only [label.init, List.mem_cons, List.mem_singleton, List.not_mem_nil,
    or_false] at hr
  rcases hr with rfl | rfl | rfl | rfl | rfl | rfl | rfl | rfl | rfl
  all_goals
    revert hc
    revert he
    simp only [tool.Registration.serverTool, label.ListRepoLabelsFn, label.GetRepoLabelFn,
      label.CreateRepoLabelFn, label.EditRepoLabelFn, label.DeleteRepoLabelFn,
      label.AddIssueLabelsFn, label.ReplaceIssueLabelsFn, label.ClearIssueLabelsFn,
      label.RemoveIssueLabelFn]
    repeat' split
  all_goals
    intro he hc
    simp [ret, retAfter] at hc
  all_goals
    subst hc
    unfold Env.errorOf at he
    simp only [*] at he
    first
    | (cases he; exact ⟨_, rfl⟩)
    | cases he

set_option maxHeartbeats 4000000 in
/-- In package `pull`, a client operation that fails makes the handler return a
Failure whose message ends with the text of the error. -/
theorem clientError_pull (r : tool.Registration) (hr : r ∈ pull.init) (env : Env)
    (req : Arguments) (c : Call) (err : String)
    (hc : c ∈ (r.serverTool.Handler env req).calls) (he : env.errorOf c = some err) :
    ∃ pre, (r.serverTool.Handler env req).out
      = Outcome.returned (ResultEnvelope.Failure (pre ++ err)) := by
  simp only [pull.init, List.mem_cons, List.mem_singleton, List.not_mem_nil,
    or_false] at hr
  rcases hr with rfl | rfl | rfl
  all_goals
    revert hc
    revert he
    simp only [tool.Registration.serverTool, pull.GetPullRequestByIndexFn,
      pull.ListRepoPullRequestsFn, pull.CreatePullRequestFn]
    repeat' split
  all_goals
    intro he hc
    simp [ret, retAfter] at hc
  all_goals
    subst hc
    unfold Env.errorOf at he
    simp only [*] at he
    first
    | (cases he; exact ⟨_, rfl⟩)
    | cases he

set_option maxHeartbeats 4000000 in
/-- In `branch.go`, a client operation that fails makes the handler return a
Failure whose message ends with the text of the error. -/
theorem clientError_repo_branch (r : tool.Registration) (hr : r ∈ repo.initBranch) (env : Env)
    (req : Arguments) (c : Call) (err : String)
    (hc : c ∈ (r.serverTool.Handler env req).calls) (he : env.errorOf c = some err) :
    ∃ pre, (r.serverTool.Handler env req).out
      = Outcome.returned (ResultEnvelope.Failure (pre ++ err)) := by
  simp only [repo.initBranch, List.mem_cons, List.mem_singleton, List.not_mem_nil,
    or_false] at hr
  rcases hr with rfl | rfl | rfl
  all_goals
    revert hc
    revert he
    simp only [tool.Registration.serverTool, repo.CreateBranchFn, repo.DeleteBranchFn,
      repo.ListBranchesFn]
    repeat' split
  all_goals
    intro he hc
    simp [ret, retAfter] at hc
  all_goals
    subst hc
    unfold Env.errorOf at he
    simp only [*] at he
    first
    | (cases he; exact ⟨_, rfl⟩)
    | cases he

set_option maxHeartbeats 4000000 in
/-- In `file.go`, a client operation that fails makes the handler return a
Failure whose message ends with the text of the error. -/
theorem clientError_repo_file (r : tool.Registration) (hr : r ∈ repo.initFile) (env : Env)
    (req : Arguments) (c : Call) (err : String)
    (hc : c ∈ (r.serverTool.Handler env req).calls) (he : env.errorOf c = some err) :
    ∃ pre, (r.serverTool.Handler env req).out
      = Outcome.returned (ResultEnvelope.Failure (pre ++ err)) := by
  simp only [repo.initFile, List.mem_cons, List.mem_singleton, List.not_mem_nil,
    or_false] at hr
  rcases hr with rfl | rfl | rfl | rfl | rfl
  all_goals
    revert hc
    revert he
    simp only [tool.Registration.serverTool, repo.GetFileContentFn, repo.GetDirContentFn,
      repo.CreateFileFn, repo.UpdateFileFn, repo.DeleteFileFn]
    repeat' split
  all_goals
    intro he hc
    simp [ret, retAfter] at hc
  all_goals
    subst hc
    unfold Env.errorOf at he
    simp only [*] at he
    first
    | (cases he; exact ⟨_, rfl⟩)
    | cases he

set_option maxHeartbeats 4000000 in
/-- In package `user`, a client operation that fails makes the handler return a
Failure whose message ends with the text of the error. -/
theorem clientError_user (r : tool.Registration) (hr : r ∈ user.init) (env : Env)
    (req : Arguments) (c : Call) (err : String)
    (hc : c ∈ (r.serverTool.Handler env req).calls) (he : env.errorOf c = some err) :
    ∃ pre, (r.serverTool.Handler env req).out
      = Outcome.returned (ResultEnvelope.Failure (pre ++ err)) := by
  simp only [user.init, user.registerTools, List.map, List.mem_cons, List.mem_singleton, List.not_mem_nil,
    or_false] at hr
  rcases hr with rfl | rfl
  all_goals
    revert hc
    revert he
    simp only [tool.Registration.serverTool, user.GetUserInfoFn, user.GetUserOrgsFn]
    repeat' split
  all_goals
    intro he hc
    simp [ret, retAfter] at hc
  all_goals
    subst hc
    unfold Env.errorOf at he
    simp only [*] at he
    first
    | (cases he; exact ⟨_, rfl⟩)
    | cases he

/-! ### Valid argument maps reach the client -/

/-- A valid argument map holds a string for every Required string parameter. -/
theorem validArgs_asString (t : mcp.Tool) (req : Arguments) (h : validArgs t req = true)
    (name : String)
    (hmem : (t.Params.any fun p => p.name == name && p.required && p.kind == mcp.Kind.string) = true) :
    asString (req.lookup name) ≠ none := by
  obtain ⟨p, hp, hcond⟩ := List.any_eq_true.mp hmem
  simp only [Bool.and_eq_true, beq_iff_eq] at hcond
  obtain ⟨⟨hn, hreq⟩, hkind⟩ := hcond
  have hall := List.all_eq_true.mp h p hp
  subst hn
  simp only [argOk] at hall
  cases hlk : req.lookup p.name with
  | none => simp [hlk, hreq] at hall
  | some v =>
    cases v <;> simp [hlk, Value.validFor, Value.hasKind, hkind, asString] at hall ⊢

/-- A valid argument map holds a number for every Required number parameter. -/
theorem validArgs_asFloat64 (t : mcp.Tool) (req : Arguments) (h : validArgs t req = true)
    (name : String)
    (hmem : (t.Params.any fun p => p.name == name && p.required && p.kind == mcp.Kind.number) = true) :
    asFloat64 (req.lookup name) ≠ none := by
  obtain ⟨p, hp, hcond⟩ := List.any_eq_true.mp hmem
  simp only [Bool.and_eq_true, beq_iff_eq] at hcond
  obtain ⟨⟨hn, hreq⟩, hkind⟩ := hcond
  have hall := List.all_eq_true.mp h p hp
  subst hn
  simp only [argOk] at hall
  cases hlk : req.lookup p.name with
  | none => simp [hlk, hreq] at hall
  | some v =>
    cases v <;> simp [hlk, Value.validFor, Value.hasKind, hkind, asFloat64] at hall ⊢

/-- A valid argument map holds an array of numbers for every Required array
parameter whose items are declared numbers. -/
theorem validArgs_array (t : mcp.Tool) (req : Arguments) (h : validArgs t req = true)
    (name : String)
    (hmem : (t.Params.any fun p => p.name == name && p.required && p.kind == mcp.Kind.array
      && p.items == some mcp.Kind.number) = true) :
    ∃ xs, req.lookup name = some (Value.arr xs)
      ∧ xs.all (Value.hasKind mcp.Kind.number) = true := by
  obtain ⟨p, hp, hcond⟩ := List.any_eq_true.mp hmem
  simp only [Bool.and_eq_true, beq_iff_eq] at hcond
  obtain ⟨⟨⟨hn, hreq⟩, hkind⟩, hitems⟩ := hcond
  have hall := List.all_eq_true.mp h p hp
  subst hn
  simp only [argOk] at hall
  cases hlk : req.lookup p.name with
  | none => simp [hlk, hreq] at hall
  | some v =>
    cases v with
    | arr xs =>
      refine ⟨xs, rfl, ?_⟩
      simpa [hlk, Value.validFor, hkind, hitems] using hall
    | _ => simp [hlk, Value.validFor, Value.hasKind, hkind] at hall

/-- In an array of numbers no element is invalid. -/
theorem firstInvalid_eq_none (xs : List Value)
    (h : xs.all (Value.hasKind mcp.Kind.number) = true) : firstInvalid xs = none := by
  induction xs with
  | nil => rfl
  | cons x rest ih =>
    cases x <;> simp_all [firstInvalid, Value.hasKind]

/-- A valid argument map holds a slice for every Required array parameter. -/
theorem validArgs_asSlice (t : mcp.Tool) (req : Arguments) (h : validArgs t req = true)
    (name : String)
    (hmem : (t.Params.any fun p => p.name == name && p.required && p.kind == mcp.Kind.array
      && p.items == some mcp.Kind.number) = true) :
    asSlice (req.lookup name) ≠ none := by
  obtain ⟨xs, hx, _⟩ := validArgs_array t req h name hmem
  simp [hx, asSlice]

/-- On the array of a valid argument map the conversion loop of
`AddIssueLabelsFn` does not stop early. -/
theorem validArgs_loop_add (env : Env) (t : mcp.Tool) (req : Arguments)
    (h : validArgs t req = true) (name : String)
    (hmem : (t.Params.any fun p => p.name == name && p.required && p.kind == mcp.Kind.array
      && p.items == some mcp.Kind.number) = true)
    (labelsRaw : List Value) (hs : asSlice (req.lookup name) = some labelsRaw) :
    label.AddIssueLabelsFn.loop env labelsRaw [] ≠ none := by
  obtain ⟨xs, hx, hall⟩ := validArgs_array t req h name hmem
  rw [hx, asSlice_arr] at hs
  have hxs : xs = labelsRaw := Option.some.inj hs
  subst hxs
  intro hnone
  exact (AddIssueLabelsFn_loop_eq_none env xs []).mp hnone (firstInvalid_eq_none xs hall)

/-- On the array of a valid argument map the conversion loop of
`ReplaceIssueLabelsFn` does not stop early. -/
theorem validArgs_loop_replace (env : Env) (t : mcp.Tool) (req : Arguments)
    (h : validArgs t req = true) (name : String)
    (hmem : (t.Params.any fun p => p.name == name && p.required && p.kind == mcp.Kind.array
      && p.items == some mcp.Kind.number) = true)
    (labelsRaw : List Value) (hs : asSlice (req.lookup name) = some labelsRaw) :
    label.ReplaceIssueLabelsFn.loop env labelsRaw [] ≠ none := by
  obtain ⟨xs, hx, hall⟩ := validArgs_array t req h name hmem
  rw [hx, asSlice_arr] at hs
  have hxs : xs = labelsRaw := Option.some.inj hs
  subst hxs
  intro hnone
  exact (ReplaceIssueLabelsFn_loop_eq_none env xs []).mp hnone (firstInvalid_eq_none xs hall)

set_option maxHeartbeats 4000000 in
/-- In package `label`, a handler given a valid argument map makes exactly one client
call, except `DeleteFileFn` without `sha`. -/
theorem validCall_label (r : tool.Registration) (hr : r ∈ label.init) (env : Env)
    (req : Arguments) (hv : validArgs r.serverTool.Tool req = true) :
    (∃ c, (r.serverTool.Handler env req).calls = [c])
    ∨ (r.serverTool.Tool.Name = "delete_file" ∧ asString (req.lookup "sha") = none
      ∧ r.serverTool.Handler env req
          = ⟨[], Outcome.returned (ResultEnvelope.Failure "sha is required")⟩) := by
  simp only [label.init, List.mem_cons, List.mem_singleton, List.not_mem_nil,
    or_false] at hr
  rcases hr with rfl | rfl | rfl | rfl | rfl | rfl | rfl | rfl | rfl
  all_goals
    simp only [tool.Registration.serverTool, label.ListRepoLabelsFn, label.GetRepoLabelFn,
      label.CreateRepoLabelFn, label.EditRepoLabelFn, label.DeleteRepoLabelFn,
      label.AddIssueLabelsFn, label.ReplaceIssueLabelsFn, label.ClearIssueLabelsFn,
      label.RemoveIssueLabelFn]
    repeat' split
  all_goals
    first
    | exact Or.inl ⟨_, rfl⟩
    | exact absurd ‹asString (List.lookup "owner" req) = none›
        (validArgs_asString _ req hv "owner" (by decide))
    | exact absurd ‹asString (List.lookup "repo" req) = none›
        (validArgs_asString _ req hv "repo" (by decide))
    | exact absurd ‹asString (List.lookup "name" req) = none›
        (validArgs_asString _ req hv "name" (by decide))
    | exact absurd ‹asString (List.lookup "color" req) = none›
        (validArgs_asString _ req hv "color" (by decide))
    | exact absurd ‹asFloat64 (List.lookup "id" req) = none›
        (validArgs_asFloat64 _ req hv "id" (by decide))
    | exact absurd ‹asFloat64 (List.lookup "index" req) = none›
        (validArgs_asFloat64 _ req hv "index" (by decide))
    | exact absurd ‹asFloat64 (List.lookup "label_id" req) = none›
        (validArgs_asFloat64 _ req hv "label_id" (by decide))
    | exact absurd ‹asSlice (List.lookup "labels" req) = none›
        (validArgs_asSlice _ req hv "labels" (by decide))
    | exact absurd ‹label.AddIssueLabelsFn.loop env _ [] = none›
        (validArgs_loop_add env _ req hv "labels" (by decide) _ ‹_›)
    | exact absurd ‹label.ReplaceIssueLabelsFn.loop env _ [] = none›
        (validArgs_loop_replace env _ req hv "labels" (by decide) _ ‹_›)

set_option maxHeartbeats 4000000 in
/-- In package `pull`, a handler given a valid argument map makes exactly one client
call, except `DeleteFileFn` without `sha`. -/
theorem validCall_pull (r : tool.Registration) (hr : r ∈ pull.init) (env : Env)
    (req : Arguments) (hv : validArgs r.serverTool.Tool req = true) :
    (∃ c, (r.serverTool.Handler env req).calls = [c])
    ∨ (r.serverTool.Tool.Name = "delete_file" ∧ asString (req.lookup "sha") = none
      ∧ r.serverTool.Handler env req
          = ⟨[], Outcome.returned (ResultEnvelope.Failure "sha is required")⟩) := by
  simp only [pull.init, List.mem_cons, List.mem_singleton, List.not_mem_nil,
    or_false] at hr
  rcases hr with rfl | rfl | rfl
  all_goals
    simp only [tool.Registration.serverTool, pull.GetPullRequestByIndexFn,
      pull.ListRepoPullRequestsFn, pull.CreatePullRequestFn]
    repeat' split
  all_goals
    first
    | exact Or.inl ⟨_, rfl⟩
    | exact absurd ‹asString (List.lookup "owner" req) = none›
        (validArgs_asString _ req hv "owner" (by decide))
    | exact absurd ‹asString (List.lookup "repo" req) = none›
        (validArgs_asString _ req hv "repo" (by decide))
    | exact absurd ‹asString (List.lookup "title" req) = none›
        (validArgs_asString _ req hv "title" (by decide))
    | exact absurd ‹asString (List.lookup "body" req) = none›
        (validArgs_asString _ req hv "body" (by decide))
    | exact absurd ‹asString (List.lookup "head" req) = none›
        (validArgs_asString _ req hv "head" (by decide))
    | exact absurd ‹asString (List.lookup "base" req) = none›
        (validArgs_asString _ req hv "base" (by decide))
    | exact absurd ‹asFloat64 (List.lookup "index" req) = none›
        (validArgs_asFloat64 _ req hv "index" (by decide))

set_option maxHeartbeats 4000000 in
/-- In `branch.go`, a handler given a valid argument map makes exactly one client
call, except `DeleteFileFn` without `sha`. -/
theorem validCall_repo_branch (r : tool.Registration) (hr : r ∈ repo.initBranch) (env : Env)
    (req : Arguments) (hv : validArgs r.serverTool.Tool req = true) :
    (∃ c, (r.serverTool.Handler env req).calls = [c])
    ∨ (r.serverTool.Tool.Name = "delete_file" ∧ asString (req.lookup "sha") = none
      ∧ r.serverTool.Handler env req
          = ⟨[], Outcome.returned (ResultEnvelope.Failure "sha is required")⟩) := by
  simp only [repo.initBranch, List.mem_cons, List.mem_singleton, List.not_mem_nil,
    or_false] at hr
  rcases hr with rfl | rfl | rfl
  all_goals
    simp only [tool.Registration.serverTool, repo.CreateBranchFn, repo.DeleteBranchFn,
      repo.ListBranchesFn]
    repeat' split
  all_goals
    first
    | exact Or.inl ⟨_, rfl⟩
    | exact absurd ‹asString (List.lookup "owner" req) = none›
        (validArgs_asString _ req hv "owner" (by decide))
    | exact absurd ‹asString (List.lookup "repo" req) = none›
        (validArgs_asString _ req hv "repo" (by decide))
    | exact absurd ‹asString (List.lookup "branch" req) = none›
        (validArgs_asString _ req hv "branch" (by decide))

set_option maxHeartbeats 4000000 in
/-- In `file.go`, a handler given a valid argument map makes exactly one client
call, except `DeleteFileFn` without `sha`. -/
theorem validCall_repo_file (r : tool.Registration) (hr : r ∈ repo.initFile) (env : Env)
    (req : Arguments) (hv : validArgs r.serverTool.Tool req = true) :
    (∃ c, (r.serverTool.Handler env req).calls = [c])
    ∨ (r.serverTool.Tool.Name = "delete_file" ∧ asString (req.lookup "sha") = none
      ∧ r.serverTool.Handler env req
          = ⟨[], Outcome.returned (ResultEnvelope.Failure "sha is required")⟩) := by
  simp only [repo.initFile, List.mem_cons, List.mem_singleton, List.not_mem_nil,
    or_false] at hr
  rcases hr with rfl | rfl | rfl | rfl | rfl
  all_goals
    simp only [tool.Registration.serverTool, repo.GetFileContentFn, repo.GetDirContentFn,
      repo.CreateFileFn, repo.UpdateFileFn, repo.DeleteFileFn]
    repeat' split
  all_goals
    first
    | exact Or.inl ⟨_, rfl⟩
    | exact absurd ‹asString (List.lookup "owner" req) = none›
        (validArgs_asString _ req hv "owner" (by decide))
    | exact absurd ‹asString (List.lookup "repo" req) = none›
        (validArgs_asString _ req hv "repo" (by decide))
    | exact absurd ‹asString (List.lookup "filePath" req) = none›
        (validArgs_asString _ req hv "filePath" (by decide))
    | exact absurd ‹asString (List.lookup "sha" req) = none›
        (validArgs_asString _ req hv "sha" (by decide))
    | exact Or.inr ⟨by decide, ‹asString (List.lookup "sha" req) = none›, rfl⟩

set_option maxHeartbeats 4000000 in
/-- In package `user`, a handler given a valid argument map makes exactly one client
call, except `DeleteFileFn` without `sha`. -/
theorem validCall_user (r : tool.Registration) (hr : r ∈ user.init) (env : Env)
    (req : Arguments) (hv : validArgs r.serverTool.Tool req = true) :
    (∃ c, (r.serverTool.Handler env req).calls = [c])
    ∨ (r.serverTool.Tool.Name = "delete_file" ∧ asString (req.lookup "sha") = none
      ∧ r.serverTool.Handler env req
          = ⟨[], Outcome.returned (ResultEnvelope.Failure "sha is required")⟩) := by
  simp only [user.init, user.registerTools, List.map, List.mem_cons, List.mem_singleton, List.not_mem_nil,
    or_false] at hr
  rcases hr with rfl | rfl
  all_goals
    simp only [tool.Registration.serverTool, user.GetUserInfoFn, user.GetUserOrgsFn]
    repeat' split
  all_goals
    exact Or.inl ⟨_, rfl⟩

/-- For every registered handler, a valid argument map leads to exactly one
client call; the one exception is `delete_file` without `sha`, which
`DeleteFileFn` rejects with the Failure "sha is required". -/
theorem validArgs_call (r : tool.Registration) (hr : r ∈ registrations) (env : Env)
    (req : Arguments) (hv : validArgs r.serverTool.Tool req = true) :
    (∃ c, (r.serverTool.Handler env req).calls = [c])
    ∨ (r.serverTool.Tool.Name = "delete_file" ∧ asString (req.lookup "sha") = none
      ∧ r.serverTool.Handler env req
          = ⟨[], Outcome.returned (ResultEnvelope.Failure "sha is required")⟩) := by
  rcases mem_registrations r hr with h | h | h | h | h
  · exact validCall_label r h env req hv
  · exact validCall_pull r h env req hv
  · exact validCall_repo_branch r h env req hv
  · exact validCall_repo_file r h env req hv
  · exact validCall_user r h env req hv

/-- For every registered handler: if the handler called the client and the
client answered that call with an error, the handler returns a Failure whose
message ends with the text of that error. -/
theorem clientError_all (r : tool.Registration) (hr : r ∈ registrations)
    (env : Env) (req : Arguments) (c : Call) (err : String)
    (hc : c ∈ (r.serverTool.Handler env req).calls) (he : env.errorOf c = some err) :
    ∃ pre, (r.serverTool.Handler env req).out
      = Outcome.returned (ResultEnvelope.Failure (pre ++ err)) := by
  rcases mem_registrations r hr with h | h | h | h | h
  · exact clientError_label r h env req c err hc he
  · exact clientError_pull r h env req c err hc he
  · exact clientError_repo_branch r h env req c err hc he
  · exact clientError_repo_file r h env req c err hc he
  · exact clientError_user r h env req c err hc he

/-- C15: for every registered handler, every environment and every argument
map.  If the argument map is valid for the schema, the handler makes exactly
one client call (the one exception is `delete_file` without `sha`, which
`DeleteFileFn` rejects before any call).  And whenever the client answers the
call of the handler with an error, the handler returns a Failure, not a
Success, and the message of the Failure ends with the text of that error. -/
theorem C15_client_error_becomes_failure (r : tool.Registration) (hr : r ∈ registrations)
    (env : Env) (req : Arguments) :
    (validArgs r.serverTool.Tool req = true →
      (∃ c, (r.serverTool.Handler env req).calls = [c])
      ∨ (r.serverTool.Tool.Name = "delete_file" ∧ asString (req.lookup "sha") = none
        ∧ r.serverTool.Handler env req
            = ⟨[], Outcome.returned (ResultEnvelope.Failure "sha is required")⟩))
    ∧ (∀ c err, c ∈ (r.serverTool.Handler env req).calls → env.errorOf c = some err →
        ∃ pre, (r.serverTool.Handler env req).out
          = Outcome.returned (ResultEnvelope.Failure (pre ++ err))) :=
  ⟨fun hv => validArgs_call r hr env req hv,
   fun c err hc he => clientError_all r hr env req c err hc he⟩

/-- C15, at a concrete input: `list_repo_labels` for `acme/widgets`, a valid
argument map, against a client that refuses the connection: the handler makes
one call and returns a Failure ending with the text of the error. -/
theorem C15_client_error_becomes_failure_witness :
    validArgs label.ListRepoLabelsTool baseReq = true
    ∧ (label.ListRepoLabelsFn downEnv baseReq).calls
        = [Call.ListRepoLabels "acme" "widgets" ⟨1, 100⟩]
    ∧ ∃ pre, (label.ListRepoLabelsFn downEnv baseReq).out
        = Outcome.returned (ResultEnvelope.Failure (pre ++ "connection refused")) :=
  ⟨by decide, by decide,
   (C15_client_error_becomes_failure
      (tool.Registration.RegisterRead ⟨label.ListRepoLabelsTool, label.ListRepoLabelsFn⟩)
      (by simp [registrations, label.init]) downEnv baseReq).2
      (Call.ListRepoLabels "acme" "widgets" ⟨1, 100⟩) "connection refused" (by decide) rfl⟩

/-! ### Number of client calls (C16) -/

/-- C17: when `owner`, `repo` and `index` have their declared types and every
element of the `labels` array is a number, `AddIssueLabelsFn` and
`ReplaceIssueLabelsFn` pass to the client one and the same list of label IDs;
it has the length of the array and its i-th ID is the conversion `int64(...)`
of the i-th element. -/
theorem C17_labels_converted_in_order (env : Env) (req : Arguments) (owner repoName : String)
    (index : Float64) (fs : List Float64)
    (ho : req.lookup "owner" = some (Value.str owner))
    (hr : req.lookup "repo" = some (Value.str repoName))
    (hi : req.lookup "index" = some (Value.num index))
    (hl : req.lookup "labels" = some (Value.arr (fs.map Value.num))) :
    ∃ ids : List Int,
      (label.AddIssueLabelsFn env req).calls
        = [Call.AddIssueLabels owner repoName (toInt64 env index) ids]
      ∧ (label.ReplaceIssueLabelsFn env req).calls
        = [Call.ReplaceIssueLabels owner repoName (toInt64 env index) ids]
      ∧ ids.length = fs.length
      ∧ ∀ i : Nat, ids[i]? = Option.map (toInt64 env) fs[i]? := by
  refine ⟨fs.map (toInt64 env), ?_, ?_, by simp, by simp⟩
  · simp only [label.AddIssueLabelsFn, ho, hr, hi, hl, asString_str, asFloat64_num,
      asSlice_arr, AddIssueLabelsFn_loop_nums, List.nil_append]
    split <;> rfl
  · simp only [label.ReplaceIssueLabelsFn, ho, hr, hi, hl, asString_str, asFloat64_num,
      asSlice_arr, ReplaceIssueLabelsFn_loop_nums, List.nil_append]
    split <;> rfl

/-- C17, at a concrete input: `labels = [1, 1.5, 7]` on issue 7. -/
theorem C17_labels_converted_in_order_witness :
    ∃ ids : List Int,
      (label.AddIssueLabelsFn env0 (reqLabels
          ([Float64.ofInt 1, onePointFive, Float64.ofInt 7].map Value.num))).calls
        = [Call.AddIssueLabels "acme" "widgets" (toInt64 env0 (Float64.ofInt 7)) ids]
      ∧ (label.ReplaceIssueLabelsFn env0 (reqLabels
          ([Float64.ofInt 1, onePointFive, Float64.ofInt 7].map Value.num))).calls
        = [Call.ReplaceIssueLabels "acme" "widgets" (toInt64 env0 (Float64.ofInt 7)) ids]
      ∧ ids.length = [Float64.ofInt 1, onePointFive, Float64.ofInt 7].length
      ∧ ∀ i : Nat, ids[i]?
          = Option.map (toInt64 env0) [Float64.ofInt 1, onePointFive, Float64.ofInt 7][i]? :=
  C17_labels_converted_in_order env0
    (reqLabels ([Float64.ofInt 1, onePointFive, Float64.ofInt 7].map Value.num))
    "acme" "widgets" (Float64.ofInt 7) [Float64.ofInt 1, onePointFive, Float64.ofInt 7]
    rfl rfl rfl rfl

/-! ### The line listing (C18) -/

/-- The loop of `GetFileContentFn` appends the scanned lines, numbered upward
from the counter. -/
theorem GetFileContentFn_loop_eq (ts : List String) (n : Nat) (acc : List ContentLine) :
    repo.GetFileContentFn.loop ts n acc = acc ++ numberFrom n ts := by
  induction ts generalizing n acc with
  | nil => simp [repo.GetFileContentFn.loop, numberFrom]
  | cons t rest ih => simp [repo.GetFileContentFn.loop, numberFrom, ih]

/-- Numbering keeps the number of lines. -/
theorem numberFrom_length (ts : List String) (n : Nat) : (numberFrom n ts).length = ts.length := by
  induction ts generalizing n with
  | nil => rfl
  | cons t rest ih => simp [numberFrom, ih]

/-- The entry at position `i` of the numbered lines (from 0) has the number
`n + i + 1` and the text of the i-th line. -/
theorem numberFrom_getElem? (ts : List String) (n i : Nat) :
    (numberFrom n ts)[i]? = Option.map (fun t => ⟨n + i + 1, t⟩) ts[i]? := by
  induction ts generalizing n i with
  | nil => simp [numberFrom]
  | cons t rest ih =>
    cases i with
    | zero => simp [numberFrom]
    | succ j =>
      simp only [numberFrom, List.getElem?_cons_succ, ih]
      congr 1
      funext t
      congr 1
      omega

/-- Dropping the last numbered line is numbering all lines but the last. -/
theorem numberFrom_dropLast (ts : List String) (n : Nat) :
    (numberFrom n ts).dropLast = numberFrom n ts.dropLast := by
  induction ts generalizing n with
  | nil => rfl
  | cons t rest ih =>
    cases rest with
    | nil => rfl
    | cons u rest2 =>
      have := ih (n + 1)
      simp only [numberFrom, List.dropLast_cons₂] at this ⊢
      rw [this]

/-- The text of the last numbered line is the last scanned line. -/
theorem numberFrom_getLast? (ts : List String) (n : Nat) :
    (numberFrom n ts).getLast?.map (fun l => l.Content) = ts.getLast? := by
  induction ts generalizing n with
  | nil => rfl
  | cons t rest ih =>
    cases rest with
    | nil => rfl
    | cons u rest2 =>
      have := ih (n + 1)
      simp only [numberFrom, List.getLast?_cons_cons] at this ⊢
      exact this

/-- Let the file decode, let the scanner deliver the lines `tokens` without
error, and let there be at least one line.  Then the line list that
`GetFileContentFn` with `withLines = true` hands to `json.MarshalIndent` (whose
answer decides the result) has at position `i`, counted from 1, the
`LineNumber` `i` and the text of the i-th scanned line, and it holds all
scanned lines but the last one when the last scanned line is empty, and all of
them otherwise. -/
theorem GetFileContentFn_line_listing (env : Env) (req : Arguments)
    (owner repoName filePath encoded rest raw : String) (tokens : List String)
    (ho : req.lookup "owner" = some (Value.str owner))
    (hr : req.lookup "repo" = some (Value.str repoName))
    (hf : req.lookup "filePath" = some (Value.str filePath))
    (hw : req.lookup "withLines" = some (Value.bool true))
    (hc : env.getContents owner repoName ((asString (req.lookup "ref")).getD "") filePath
        = Except.ok ⟨some encoded, rest⟩)
    (hd : env.DecodeString encoded = Except.ok raw)
    (hs : env.scanner raw = (tokens, none))
    (hne : tokens ≠ []) :
    ∃ lines : List ContentLine,
      (∀ s, env.MarshalIndent lines = Except.ok s →
        repo.GetFileContentFn env req
          = ⟨[Call.GetContents owner repoName ((asString (req.lookup "ref")).getD "") filePath],
             Outcome.returned (ResultEnvelope.Success (Payload.contents ⟨some s, rest⟩))⟩)
      ∧ (∀ e, env.MarshalIndent lines = Except.error e →
        repo.GetFileContentFn env req
          = ⟨[Call.GetContents owner repoName ((asString (req.lookup "ref")).getD "") filePath],
             Outcome.returned (ResultEnvelope.Failure ("marshal content lines err: " ++ e))⟩)
      ∧ (∀ i : Nat, i < lines.length → lines[i]? = Option.map (fun t => ⟨i + 1, t⟩) tokens[i]?)
      ∧ lines.length = (if tokens.getLast? = some "" then tokens.length - 1 else tokens.length) := by
  have hloop : repo.GetFileContentFn.loop tokens 0 [] = numberFrom 0 tokens := by
    simp [GetFileContentFn_loop_eq]
  obtain ⟨last, hlast⟩ : ∃ last, (numberFrom 0 tokens).getLast? = some last := by
    cases h : (numberFrom 0 tokens).getLast? with
    | none =>
      have hlen := numberFrom_length tokens 0
      rw [List.getLast?_eq_none_iff.mp h] at hlen
      exact absurd (List.length_eq_zero.mp hlen.symm) hne
    | some l => exact ⟨l, rfl⟩
  have hcontent : tokens.getLast? = some last.Content := by
    rw [← numberFrom_getLast? tokens 0, hlast]
    rfl
  refine ⟨if last.Content = "" then numberFrom 0 tokens.dropLast else numberFrom 0 tokens,
    ?_, ?_, ?_, ?_⟩
  · intro s hm
    simp only [repo.GetFileContentFn, ho, hr, hf, hw, asString_str, asBool_bool, hc, hd, hs,
      Option.getD_some, if_true, hloop, hlast, numberFrom_dropLast, hm, retAfter, To.TextResult]
  · intro e hm
    simp only [repo.GetFileContentFn, ho, hr, hf, hw, asString_str, asBool_bool, hc, hd, hs,
      Option.getD_some, if_true, hloop, hlast, numberFrom_dropLast, hm, retAfter, To.ErrorResult]
  · intro i _
    split
    · rename_i hempty
      rw [numberFrom_getElem?]
      simp only [Nat.zero_add]
      by_cases hi : i < tokens.dropLast.length
      · rw [List.getElem?_eq_getElem hi, List.getElem?_eq_getElem
          (by simp at hi; omega)]
        simp [List.getElem_dropLast]
      · rename_i hlt
        simp [hempty, numberFrom_length] at hlt
        simp at hi
        omega
    · rw [numberFrom_getElem?]
      simp only [Nat.zero_add]
  · by_cases hempty : last.Content = ""
    · simp [hempty, hcontent, numberFrom_length]
    · have : ¬ (some last.Content = some "") := by simpa using hempty
      simp [hempty, hcontent, numberFrom_length]


/-- A run of letters `a` that, together with the part of the line already
read, has `MaxScanTokenSize` bytes or more stops the scanner with `ErrTooLong`
before a line is delivered. -/
theorem scanLines_replicate (n : Nat) (cur : List Char)
    (h : MaxScanTokenSize ≤ byteLength cur + n) :
    scanLines (List.replicate n 'a') cur = ([], some ErrTooLong) := by
  induction n generalizing cur with
  | zero =>
    have hlen : MaxScanTokenSize ≤ byteLength cur := by simpa using h
    have hne : cur.isEmpty = false := by
      cases cur with
      | nil => simp [MaxScanTokenSize, byteLength] at hlen
      | cons c rest => rfl
    simp [scanLines, hne, hlen]
  | succ k ih =>
    have hc : ('a' : Char) ≠ '\n' := by decide
    have ha : ('a' : Char).utf8Size = 1 := by decide
    simp only [List.replicate_succ, scanLines, hc, if_false]
    exact ih (cur ++ ['a']) (by simp [byteLength, ha] at h ⊢; omega)

/-- A run of `n` letters `a` has `n` bytes. -/
theorem byteLength_replicate (n : Nat) : byteLength (List.replicate n 'a') = n := by
  have ha : ('a' : Char).utf8Size = 1 := by decide
  induction n with
  | zero => rfl
  | succ k ih =>
    simp only [byteLength, List.replicate_succ, List.map_cons, List.sum_cons, ha] at ih ⊢
    omega

/-- A scan without error of a non-empty input delivers at least one line. -/
theorem scanLines_tokens_ne_nil (cs cur : List Char) (h : cs ≠ [] ∨ cur ≠ [])
    (herr : (scanLines cs cur).2 = none) : (scanLines cs cur).1 ≠ [] := by
  induction cs generalizing cur with
  | nil =>
    have hcur : cur ≠ [] := by
      rcases h with h | h
      · exact absurd rfl h
      · exact h
    have hne : cur.isEmpty = false := by
      cases cur with
      | nil => exact absurd rfl hcur
      | cons c rest => rfl
    by_cases hlen : MaxScanTokenSize ≤ byteLength cur
    · simp [scanLines, hne, hlen] at herr
    · simp [scanLines, hne, hlen]
  | cons c rest ih =>
    by_cases hc : c = '\n'
    · by_cases hlen : MaxScanTokenSize ≤ byteLength cur
      · simp [scanLines, hc, hlen] at herr
      · simp [scanLines, hc, hlen]
    · simp only [scanLines, hc, if_false] at herr ⊢
      exact ih (cur ++ [c]) (Or.inr (by simp)) herr

/-- When the scanner stops with an error, `GetFileContentFn` with
`withLines = true` returns the Failure "scan content err: ..." after the
`GetContents` call. -/
theorem GetFileContentFn_scan_error (env : Env) (req : Arguments)
    (owner repoName filePath encoded rest raw err : String)
    (ho : req.lookup "owner" = some (Value.str owner))
    (hr : req.lookup "repo" = some (Value.str repoName))
    (hf : req.lookup "filePath" = some (Value.str filePath))
    (hw : req.lookup "withLines" = some (Value.bool true))
    (hc : env.getContents owner repoName ((asString (req.lookup "ref")).getD "") filePath
        = Except.ok ⟨some encoded, rest⟩)
    (hd : env.DecodeString encoded = Except.ok raw)
    (hs : (env.scanner raw).2 = some err) :
    repo.GetFileContentFn env req
      = ⟨[Call.GetContents owner repoName ((asString (req.lookup "ref")).getD "") filePath],
         Outcome.returned (ResultEnvelope.Failure ("scan content err: " ++ err))⟩ := by
  simp only [repo.GetFileContentFn, ho, hr, hf, hw, asString_str, asBool_bool, hc, hd, hs,
    Option.getD_some, if_true, retAfter, To.ErrorResult]

/-- C18, counterexample: the decoded content `longLine` is not empty; it is one
line of 65536 bytes, on which the scanner stops with `ErrTooLong` before it
delivers a line; `GetFileContentFn` with `withLines = true` returns the Failure
"scan content err: bufio.Scanner: token too long" and no line list. -/
theorem C18_counterexample_line_too_long :
    longLine ≠ ""
    ∧ byteLength longLine.data = 65536
    ∧ longLineEnv.DecodeString longLineEncoded = Except.ok longLine
    ∧ longLineEnv.scanner longLine = ([], some "bufio.Scanner: token too long")
    ∧ repo.GetFileContentFn longLineEnv reqWithLines
        = ⟨[Call.GetContents "acme" "widgets" "main" "README.md"],
           Outcome.returned
             (ResultEnvelope.Failure "scan content err: bufio.Scanner: token too long")⟩ := by
  have hdata : longLine.data = List.replicate MaxScanTokenSize 'a' := by
    unfold longLine
    rfl
  have hlen : byteLength longLine.data = 65536 := by
    rw [hdata, byteLength_replicate]
    rfl
  have hscan : longLineEnv.scanner longLine = ([], some ErrTooLong) := by
    show scanLines longLine.data [] = _
    rw [hdata]
    exact scanLines_replicate MaxScanTokenSize [] (Nat.le_add_left _ _)
  have hdec : longLineEnv.DecodeString longLineEncoded = Except.ok longLine := if_pos rfl
  refine ⟨?_, hlen, hdec, hscan, ?_⟩
  · intro h
    rw [h] at hlen
    exact absurd hlen (by decide)
  · exact GetFileContentFn_scan_error longLineEnv reqWithLines "acme" "widgets" "README.md"
      longLineEncoded "{}" longLine ErrTooLong rfl rfl rfl rfl rfl hdec
      (by rw [hscan])

/-- C18, amended: let the file decode to a non-empty content, read by the
scanner `bufio.Scanner` with `bufio.ScanLines`.  If the scanner stops with an
error, which it does on a line of 64 KiB or more, `GetFileContentFn` with
`withLines = true` returns the Failure "scan content err: ..." and builds no
line list.  If the scanner reads the content to its end without error, the line
list that `GetFileContentFn` hands to `json.MarshalIndent` (whose answer decides
the result) has at position `i`, counted from 1, the `LineNumber` `i` and the
text of the i-th scanned line, and it holds all scanned lines but the last one
when the last scanned line is empty, and all of them otherwise. -/
theorem C18_line_listing (env : Env) (req : Arguments)
    (owner repoName filePath encoded rest raw : String)
    (ho : req.lookup "owner" = some (Value.str owner))
    (hr : req.lookup "repo" = some (Value.str repoName))
    (hf : req.lookup "filePath" = some (Value.str filePath))
    (hw : req.lookup "withLines" = some (Value.bool true))
    (hc : env.getContents owner repoName ((asString (req.lookup "ref")).getD "") filePath
        = Except.ok ⟨some encoded, rest⟩)
    (hd : env.DecodeString encoded = Except.ok raw)
    (hsc : env.scanner raw = scanLines raw.data [])
    (hraw : raw ≠ "") :
    (∀ err, (scanLines raw.data []).2 = some err →
      repo.GetFileContentFn env req
        = ⟨[Call.GetContents owner repoName ((asString (req.lookup "ref")).getD "") filePath],
           Outcome.returned (ResultEnvelope.Failure ("scan content err: " ++ err))⟩)
    ∧ ((scanLines raw.data []).2 = none →
      ∃ lines : List ContentLine,
        (∀ s, env.MarshalIndent lines = Except.ok s →
          repo.GetFileContentFn env req
            = ⟨[Call.GetContents owner repoName ((asString (req.lookup "ref")).getD "")
                  filePath],
               Outcome.returned (ResultEnvelope.Success (Payload.contents ⟨some s, rest⟩))⟩)
        ∧ (∀ e, env.MarshalIndent lines = Except.error e →
          repo.GetFileContentFn env req
            = ⟨[Call.GetContents owner repoName ((asString (req.lookup "ref")).getD "")
                  filePath],
               Outcome.returned
                 (ResultEnvelope.Failure ("marshal content lines err: " ++ e))⟩)
        ∧ (∀ i : Nat, i < lines.length →
            lines[i]? = Option.map (fun t => ⟨i + 1, t⟩) (scanLines raw.data []).1[i]?)
        ∧ lines.length = (if (scanLines raw.data []).1.getLast? = some ""
            then (scanLines raw.data []).1.length - 1
            else (scanLines raw.data []).1.length)) := by
  have hdata : raw.data ≠ [] := fun h => hraw (String.ext h)
  refine ⟨?_, ?_⟩
  · intro err herr
    exact GetFileContentFn_scan_error env req owner repoName filePath encoded rest raw err
      ho hr hf hw hc hd (by rw [hsc]; exact herr)
  · intro herr
    have hs : env.scanner raw = ((scanLines raw.data []).1, none) := by
      rw [hsc]
      exact Prod.ext rfl herr
    exact GetFileContentFn_line_listing env req owner repoName filePath encoded rest raw
      (scanLines raw.data []).1 ho hr hf hw hc hd hs
      (scanLines_tokens_ne_nil raw.data [] (Or.inl hdata) herr)

/-- C18, amended, at a concrete input: the file holds the line `a` followed by
an empty line; the scanner delivers `a` and the empty line without error, and
the listing handed to `json.MarshalIndent` is the single entry with
`LineNumber = 1` and text `a`. -/
theorem C18_line_listing_witness :
    scanLines "a\n\n".data [] = (["a", ""], none)
    ∧ (∃ lines : List ContentLine,
      (∀ s, (sampleEnv twoLineFile).MarshalIndent lines = Except.ok s →
        repo.GetFileContentFn (sampleEnv twoLineFile) reqWithLines
          = ⟨[Call.GetContents "acme" "widgets" "main" "README.md"],
             Outcome.returned (ResultEnvelope.Success (Payload.contents ⟨some s, "{}"⟩))⟩)
      ∧ (∀ e, (sampleEnv twoLineFile).MarshalIndent lines = Except.error e →
        repo.GetFileContentFn (sampleEnv twoLineFile) reqWithLines
          = ⟨[Call.GetContents "acme" "widgets" "main" "README.md"],
             Outcome.returned (ResultEnvelope.Failure ("marshal content lines err: " ++ e))⟩)
      ∧ (∀ i : Nat, i < lines.length →
          lines[i]? = Option.map (fun t => ⟨i + 1, t⟩) ["a", ""][i]?)
      ∧ lines.length = (if ["a", ""].getLast? = some "" then ["a", ""].length - 1
          else ["a", ""].length))
    ∧ repo.GetFileContentFn (sampleEnv twoLineFile) reqWithLines
        = ⟨[Call.GetContents "acme" "widgets" "main" "README.md"],
           Outcome.returned (ResultEnvelope.Success (Payload.contents ⟨some "1: a", "{}"⟩))⟩ :=
  ⟨by decide,
   (C18_line_listing (sampleEnv twoLineFile) reqWithLines "acme" "widgets" "README.md" "YQoK"
      "{}" "a\n\n" rfl rfl rfl rfl rfl rfl rfl (by decide)).2 (by decide),
   by decide⟩

/-! ### The parameter `new_branch_name` (C19) -/

/-- A pair put in front of an argument map does not change the lookup of a
different key. -/
theorem lookup_cons_of_ne (req : Arguments) (k n : String) (v : Value) (h : k ≠ n) :
    List.lookup k ((n, v) :: req) = req.lookup k := by
  simp [List.lookup, beq_eq_false_iff_ne.mpr h]

/-- C19: two argument maps that agree on every key other than
`new_branch_name` lead `CreateFileFn` to the same client call and the same
result. -/
theorem C19_new_branch_name_has_no_effect (env : Env) (req1 req2 : Arguments)
    (h : ∀ k, k ≠ "new_branch_name" → req1.lookup k = req2.lookup k) :
    repo.CreateFileFn env req1 = repo.CreateFileFn env req2 := by
  have h1 := h "owner" (by decide)
  have h2 := h "repo" (by decide)
  have h3 := h "filePath" (by decide)
  have h4 := h "content" (by decide)
  have h5 := h "message" (by decide)
  have h6 := h "branch_name" (by decide)
  simp only [repo.CreateFileFn, h1, h2, h3, h4, h5, h6]

/-- C19, at a concrete input: the same `create_file` request without
`new_branch_name` and with `new_branch_name = "feature"`. -/
theorem C19_new_branch_name_has_no_effect_witness :
    repo.CreateFileFn env0
        (baseReq ++ [("filePath", Value.str "a.txt"), ("content", Value.str "hello"),
          ("message", Value.str "add"), ("branch_name", Value.str "main")])
      = repo.CreateFileFn env0
        (("new_branch_name", Value.str "feature") ::
          (baseReq ++ [("filePath", Value.str "a.txt"), ("content", Value.str "hello"),
            ("message", Value.str "add"), ("branch_name", Value.str "main")])) :=
  C19_new_branch_name_has_no_effect env0 _ _
    (fun k hk => (lookup_cons_of_ne _ k "new_branch_name" (Value.str "feature") hk).symm)

/-! ### Pagination bounds (C20) -/

/-- C20, at a failing input: with `page = 0` and `pageSize = -5`,
`ListRepoLabelsFn` and `ListRepoPullRequestsFn` pass `Page = 0` and
`PageSize = -5` to the client, while `GetUserOrgsFn`, which reads the same
arguments through `getIntArg`, passes `Page = 1` and `PageSize = 100`. -/
theorem C20_page_below_one_passed_through :
    (label.ListRepoLabelsFn env0
        (baseReq ++ [("page", Value.num (Float64.ofInt 0)),
          ("pageSize", Value.num (Float64.ofInt (-5)))])).calls
      = [Call.ListRepoLabels "acme" "widgets" ⟨0, -5⟩]
    ∧ (pull.ListRepoPullRequestsFn env0
        (baseReq ++ [("page", Value.num (Float64.ofInt 0)),
          ("pageSize", Value.num (Float64.ofInt (-5)))])).calls
      = [Call.ListRepoPullRequests "acme" "widgets" ⟨"", "recentupdate", 0, ⟨0, -5⟩⟩]
    ∧ (user.GetUserOrgsFn env0
        (baseReq ++ [("page", Value.num (Float64.ofInt 0)),
          ("pageSize", Value.num (Float64.ofInt (-5)))])).calls
      = [Call.ListMyOrgs ⟨1, 100⟩] := by
  refine ⟨by decide, by decide, by decide⟩

end GiteaMcp
